import Mathlib

/-!
Shallow embedding of the antigravity proxy's protocol-translation core
(constants, tool-name sanitization, the two TTL caches, the OpenAI and
Gemini response converters, SSE accumulation, and the Gemini inbound
request converter), together with theorems settling the frozen claims.

Conventions of the embedding, mirroring the JavaScript semantics:
* a JS string argument that may be `null`/`undefined` is modelled as a
  `String` where `""` plays the role of every falsy value (JS code under
  embedding only ever tests such values for truthiness), except where a
  present-but-empty value is distinguishable from an absent one, in which
  case `Option String` is used;
* JS numbers appearing here are token counts and budgets; they are
  modelled as `Nat`, with `0` as the falsy value (the embedded code only
  combines them with `||` and `+`, on which JS `0` and `undefined`
  agree);
* `Map` objects are association lists in insertion order; `Map.set` on an
  existing key overwrites in place, otherwise appends;
* wall-clock times (`Date.now()`) are explicit `Nat` parameters;
* `crypto` primitives (SHA-256 hex digests, random ids/UUIDs) are opaque
  inputs, passed as function or string parameters.
-/

/-! ## String helpers (JS `includes`, regexes over ASCII classes) -/

/-- Character class of the regex `[a-zA-Z0-9_-]` used by `sanitizeToolName`. -/
def isAllowedChar (c : Char) : Bool :=
  c.isAlpha || c.isDigit || c = '_' || c = '-'

/-- Substring test on character lists; `listHasInfix h p` is JS `h.includes(p)`. -/
def listHasInfix : List Char → List Char → Bool
  | [], pat => pat.isEmpty
  | c :: t, pat => pat.isPrefixOf (c :: t) || listHasInfix t pat

/-- JS `s.includes(pat)`. -/
def strIncludes (s pat : String) : Bool :=
  listHasInfix s.data pat.data

/-- JS `s.toLowerCase()`, character by character (identical on the ASCII
model names the source compares). -/
def jsToLower (s : String) : String :=
  String.mk (s.data.map Char.toLower)

/-- Value of a run of decimal digits, as computed by JS `parseInt(run, 10)`. -/
def digitsToNat (ds : List Char) : Nat :=
  ds.foldl (fun a c => a * 10 + (c.toNat - 48)) 0

/-! ## `constants.js` -/

/-- `MIN_SIGNATURE_LENGTH = 50` from `constants.js`. -/
def MIN_SIGNATURE_LENGTH : Nat := 50

/-- `GEMINI_MAX_OUTPUT_TOKENS = 16384` from `constants.js`. -/
def GEMINI_MAX_OUTPUT_TOKENS : Nat := 16384

/-- `getModelFamily` from `constants.js`. -/
def getModelFamily (modelName : String) : String :=
  let lower := jsToLower modelName
  if strIncludes lower "claude" then "claude"
  else if strIncludes lower "gemini" then "gemini"
  else "unknown"

/-- First match of the regex `gemini-(\d+)` in `lower`, as the numeric value of
its digit group: scans left to right for an occurrence of `gemini-` that is
followed by at least one digit, and returns the value of the maximal digit
run there (`isThinkingModel`, `constants.js`). -/
def geminiVersionNum : List Char → Option Nat
  | [] => none
  | c :: t =>
    if ("gemini-".data).isPrefixOf (c :: t) then
      let ds := (List.drop 7 (c :: t)).takeWhile Char.isDigit
      if ds.isEmpty then geminiVersionNum t else some (digitsToNat ds)
    else geminiVersionNum t

/-- `isThinkingModel` from `constants.js`. -/
def isThinkingModel (modelName : String) : Bool :=
  let lower := jsToLower modelName
  if strIncludes lower "claude" && strIncludes lower "thinking" then true
  else if strIncludes lower "gemini" then
    if strIncludes lower "thinking" then true
    else
      match geminiVersionNum lower.data with
      | some n => 3 ≤ n
      | none => false
  else false

/-- Test of the date-suffix regex (`MODEL_DATE_SUFFIX_REGEX` in
`constants.js`, a hyphen then exactly eight digits, anchored at the end):
the string ends in a hyphen followed by exactly eight digits. -/
def hasDateSuffix (s : String) : Bool :=
  let r := s.data.reverse
  ((r.take 8).length = 8 && (r.take 8).all Char.isDigit)
    && r.get? 8 = some '-'

/-- `modelName.replace(MODEL_DATE_SUFFIX_REGEX, '')`: drops the matched
9-character tail. -/
def stripDateSuffix (s : String) : String :=
  String.mk (s.data.take (s.data.length - 9))

/-- `mapModelName` from `constants.js`: the single `MODEL_REDIRECTS` entry
redirects any name containing "haiku" (case-insensitive), after which date
suffixes are normalized away. -/
def mapModelName (modelName : String) : String :=
  if modelName = "" then modelName
  else
    let lower := jsToLower modelName
    if strIncludes lower "haiku" then "gemini-2.5-flash-lite"
    else if hasDateSuffix modelName then stripDateSuffix modelName
    else modelName

/-! ## `tool-converter.js`: `sanitizeToolName` -/

/-- `cleaned.replace(/^_+|_+$/g, '')`: trim leading and trailing underscores. -/
def trimUnderscores (cs : List Char) : List Char :=
  ((cs.dropWhile (· = '_')).reverse.dropWhile (· = '_')).reverse

/-- `sanitizeToolName` from `tool-converter.js`.  `none` models the
`!name || typeof name !== 'string'` inputs (null, undefined, non-strings);
`some ""` is the falsy empty string, which takes the same early return. -/
def sanitizeToolName : Option String → String
  | none => "tool"
  | some s =>
    if s = "" then "tool"
    else
      let cleaned := s.data.map (fun c => if isAllowedChar c then c else '_')
      let cleaned := trimUnderscores cleaned
      let cleaned := if cleaned.isEmpty then "tool".data else cleaned
      let cleaned := if cleaned.length > 128 then cleaned.take 128 else cleaned
      String.mk cleaned

/-- Reference definition following the words of the specification: replace
every character outside `[A-Za-z0-9_-]` with an underscore, trim leading and
trailing underscores, substitute "tool" if the result is empty, truncate to
at most 128 characters. -/
def sanitizeToolNameSpec (s : String) : String :=
  let replaced := s.data.map (fun c => if isAllowedChar c then c else '_')
  let trimmed := trimUnderscores replaced
  let nonEmpty := if trimmed.isEmpty then "tool".data else trimmed
  String.mk (nonEmpty.take 128)

/-! ## `tool-name-cache.js` -/

/-- One cached tool-name mapping: `{ originalName, ts }`. -/
structure ToolNameEntry where
  originalName : String
  ts : Nat
deriving DecidableEq, Repr

/-- JS `Map` as an insertion-ordered association list. -/
abbrev JsMap (α : Type) := List (String × α)

/-- JS `Map.set`: overwrite in place if the key exists, else append. -/
def jsMapSet {α : Type} (m : JsMap α) (k : String) (v : α) : JsMap α :=
  if m.any (fun p => decide (p.1 = k)) then
    m.map (fun p => if p.1 = k then (k, v) else p)
  else m ++ [(k, v)]

/-- The tool-name cache map. -/
abbrev ToolNameCache := JsMap ToolNameEntry

/-- `MAX_ENTRIES = 512` from `tool-name-cache.js`. -/
def TOOLNAME_MAX_ENTRIES : Nat := 512

/-- `ENTRY_TTL_MS = 30 * 60 * 1000` from `tool-name-cache.js`. -/
def TOOLNAME_TTL_MS : Nat := 30 * 60 * 1000

/-- `makeKey` from `tool-name-cache.js`. -/
def makeKey (sessionId model safeName : String) : String :=
  sessionId ++ "::" ++ model ++ "::" ++ safeName

/-- `pruneSize` from `tool-name-cache.js`: drop the oldest entries (FIFO,
i.e. from the front) until at most `targetSize` remain. -/
def pruneSize (m : ToolNameCache) (targetSize : Nat) : ToolNameCache :=
  if m.length ≤ targetSize then m else m.drop (m.length - targetSize)

/-- `setToolNameMapping` from `tool-name-cache.js`.  The periodic-cleanup
timer bookkeeping (`startCleanup`) has no effect on cache contents and is
not modelled. -/
def setToolNameMapping (m : ToolNameCache) (now : Nat)
    (sessionId model safeName originalName : String) : ToolNameCache :=
  if safeName = "" || originalName = "" || safeName = originalName then m
  else
    pruneSize (jsMapSet m (makeKey sessionId model safeName) ⟨originalName, now⟩)
      TOOLNAME_MAX_ENTRIES

/-- `getOriginalToolName` from `tool-name-cache.js`; returns the looked-up
original name together with the cache state (an expired entry is deleted on
read).  `now - entry.ts` is truncated subtraction, which agrees with the JS
comparison for the monotone clocks in question. -/
def getOriginalToolName (m : ToolNameCache) (now : Nat)
    (sessionId model safeName : String) : Option String × ToolNameCache :=
  if safeName = "" then (none, m)
  else
    let key := makeKey sessionId model safeName
    match m.find? (fun p => decide (p.1 = key)) with
    | none => (none, m)
    | some p =>
      if TOOLNAME_TTL_MS < now - p.2.ts then
        (none, m.filter (fun q => !decide (q.1 = key)))
      else
        (if p.2.originalName = "" then none else some p.2.originalName, m)

/-! ## `signature-cache.js` -/

/-- One cached thought signature: `{ signature, timestamp }`. -/
structure SigEntry where
  signature : String
  timestamp : Nat
deriving DecidableEq, Repr

/-- The signature cache map. -/
abbrev SigCache := JsMap SigEntry

/-- `GEMINI_SIGNATURE_CACHE_TTL_MS = 2 * 60 * 60 * 1000` from `constants.js`. -/
def SIG_TTL_MS : Nat := 2 * 60 * 60 * 1000

/-- `cacheSignature` from `signature-cache.js` (timer bookkeeping omitted). -/
def cacheSignature (m : SigCache) (now : Nat) (toolUseId signature : String) :
    SigCache :=
  if toolUseId = "" || signature = "" then m
  else jsMapSet m toolUseId ⟨signature, now⟩

/-- `getCachedSignature` from `signature-cache.js`; expired entries are
deleted on read. -/
def getCachedSignature (m : SigCache) (now : Nat) (toolUseId : String) :
    Option String × SigCache :=
  if toolUseId = "" then (none, m)
  else
    match m.find? (fun p => decide (p.1 = toolUseId)) with
    | none => (none, m)
    | some p =>
      if SIG_TTL_MS < now - p.2.timestamp then
        (none, m.filter (fun q => !decide (q.1 = toolUseId)))
      else (some p.2.signature, m)

/-! ## Response parts and SSE chunks (the native/Google response shape) -/

/-- A `functionCall` object inside a response part.  `id = ""` models an
absent or falsy id; `argsJson` carries the JSON serialization of `args`
(`""` when `args` is absent, so that `JSON.stringify(args || ...)` is
`stringifyArgs argsJson`). -/
structure FunctionCallR where
  id : String := ""
  name : String := ""
  argsJson : String := ""
deriving DecidableEq, Repr

/-- `JSON.stringify(funcCall.args || ...)`: the empty-object serialization
when the arguments are absent. -/
def stringifyArgs (argsJson : String) : String :=
  if argsJson = "" then "\x7b\x7d" else argsJson

/-- A `functionResponse` object inside a request part (`response.output`
carried opaquely). -/
structure FunctionResponseR where
  id : String := ""
  name : String := ""
  output : String := ""
deriving DecidableEq, Repr

/-- A content `Part`.  `thought` is the `thought === true` flag; `text` is
`none` when the field is `undefined`; `thoughtSignature = ""` models an
absent signature; `functionCall`/`functionResponse` are present or not.
(`inlineData` parts play no role in any claim and are not modelled.) -/
structure PartR where
  thought : Bool := false
  text : Option String := none
  thoughtSignature : String := ""
  functionCall : Option FunctionCallR := none
  functionResponse : Option FunctionResponseR := none
deriving DecidableEq, Repr

/-- `usageMetadata` of a native response. -/
structure UsageMetadataR where
  promptTokenCount : Nat := 0
  candidatesTokenCount : Nat := 0
  cachedContentTokenCount : Nat := 0
deriving DecidableEq, Repr

/-- `candidate.content`. -/
structure ContentR where
  parts : List PartR := []
deriving DecidableEq, Repr

/-- One `candidate`; `finishReason = ""` models an absent finish reason. -/
structure CandidateR where
  finishReason : String := ""
  content : ContentR := {}
deriving DecidableEq, Repr

/-- A full native (Google) response object. -/
structure GoogleResponseR where
  candidates : List CandidateR := []
  usageMetadata : UsageMetadataR := {}
deriving DecidableEq, Repr

/-- The parsed payload of one SSE `data:` line, after the
`data.response || data` envelope unwrap and `JSON.parse` (the byte/line
framing and JSON decoding are outside the embedding: a stream is the list
of its successfully parsed `data:` payloads, in order). -/
structure SSEChunk where
  usageMetadata : Option UsageMetadataR := none
  candidates : List CandidateR := []
deriving DecidableEq, Repr

/-- Parts carried for the first candidate of a chunk (all converters only
read `candidates[0]`). -/
def chunkParts (c : SSEChunk) : List PartR :=
  (c.candidates.headD {}).content.parts

/-- Finish reason carried by a chunk's first candidate (`""` if none). -/
def chunkFin (c : SSEChunk) : String :=
  (c.candidates.headD {}).finishReason

/-! ## `openai/response-converter.js` -/

/-- `mapFinishReason` from `openai/response-converter.js`. -/
def mapFinishReason : String → String
  | "STOP" => "stop"
  | "MAX_TOKENS" => "length"
  | "TOOL_USE" => "tool_calls"
  | "FUNCTION_CALL" => "tool_calls"
  | "SAFETY" => "content_filter"
  | _ => "stop"

/-- The tool-call id used on the OpenAI side: `funcCall.id` when truthy,
otherwise `call_` plus the first 24 hex characters of the SHA-256 digest of
`name:args` (`hashHex` stands for the hex digest of `crypto.createHash`). -/
def openaiToolId (hashHex : String → String) (fc : FunctionCallR) : String :=
  if fc.id ≠ "" then fc.id
  else "call_" ++ (hashHex (fc.name ++ ":" ++ stringifyArgs fc.argsJson)).take 24

/-- An OpenAI tool-call object as emitted by the converter
(`function.name`/`function.arguments` flattened into `name`/`argumentsJson`;
`thoughtSignature = ""` models the field being omitted). -/
structure ToolCallOutR where
  id : String
  type : String := "function"
  name : String
  argumentsJson : String
  thoughtSignature : String := ""
deriving DecidableEq, Repr

/-- The accumulator of the per-part loop of `convertGoogleToOpenAI`,
together with the two caches it reads and writes. -/
structure ConvState where
  messageContent : String := ""
  reasoningContent : String := ""
  toolCalls : List ToolCallOutR := []
  toolCache : ToolNameCache := []
  sigCache : SigCache := []
deriving DecidableEq, Repr

/-- One iteration of the `for (const part of parts)` loop in
`convertGoogleToOpenAI`. -/
def convertPartStep (hashHex : String → String) (nowMs : Nat)
    (sessionId originalModel : String) (st : ConvState) (part : PartR) :
    ConvState :=
  if part.thought then
    { st with reasoningContent := st.reasoningContent ++ part.text.getD "" }
  else
    match part.functionCall with
    | some fc =>
      let toolId := openaiToolId hashHex fc
      let lookup := getOriginalToolName st.toolCache nowMs sessionId originalModel fc.name
      let originalName := lookup.1.getD fc.name
      let signature := part.thoughtSignature
      let sigCache :=
        if signature ≠ "" && MIN_SIGNATURE_LENGTH ≤ signature.length then
          cacheSignature st.sigCache nowMs toolId signature
        else st.sigCache
      { st with
        toolCalls := st.toolCalls ++
          [{ id := toolId, name := originalName,
             argumentsJson := stringifyArgs fc.argsJson,
             thoughtSignature := signature }],
        toolCache := lookup.2, sigCache := sigCache }
    | none =>
      match part.text with
      | some t => { st with messageContent := st.messageContent ++ t }
      | none => st

/-- `message` object of the non-streaming OpenAI response
(`content` is `null` when the accumulated text is empty;
`reasoning_content = ""` and `tool_calls = []` model the fields being
omitted). -/
structure OpenAIMessageR where
  role : String := "assistant"
  content : Option String := none
  reasoning_content : String := ""
  tool_calls : List ToolCallOutR := []
deriving DecidableEq, Repr

/-- One `choices` entry. -/
structure OpenAIChoiceR where
  index : Nat := 0
  message : OpenAIMessageR := {}
  finish_reason : String := ""
deriving DecidableEq, Repr

/-- The `usage` object (`cached_tokens = none` models
`prompt_tokens_details` being omitted). -/
structure OpenAIUsageR where
  prompt_tokens : Nat := 0
  completion_tokens : Nat := 0
  total_tokens : Nat := 0
  cached_tokens : Option Nat := none
deriving DecidableEq, Repr

/-- A non-streaming OpenAI chat-completion response. -/
structure OpenAIResponseR where
  id : String := ""
  object : String := "chat.completion"
  created : Nat := 0
  model : String := ""
  choices : List OpenAIChoiceR := []
  usage : OpenAIUsageR := {}
deriving DecidableEq, Repr

/-- `convertGoogleToOpenAI` from `openai/response-converter.js`.  Opaque
environment: `hashHex` (SHA-256 hex digest), `randHex` (the
`crypto.randomBytes(12).toString('hex')` response id suffix), `createdSec`
(`Date.now()/1000`), `nowMs` (`Date.now()` for the caches).  Returns the
response together with the updated tool-name and signature caches. -/
def convertGoogleToOpenAI (hashHex : String → String) (randHex : String)
    (createdSec nowMs : Nat) (toolCache : ToolNameCache) (sigCache : SigCache)
    (googleResponse : GoogleResponseR) (originalModel sessionId : String) :
    OpenAIResponseR × ToolNameCache × SigCache :=
  let candidate := googleResponse.candidates.headD {}
  let parts := candidate.content.parts
  let usage := googleResponse.usageMetadata
  let st := parts.foldl (convertPartStep hashHex nowMs sessionId originalModel)
    { toolCache := toolCache, sigCache := sigCache }
  let finishReason := mapFinishReason candidate.finishReason
  let message : OpenAIMessageR :=
    { content := if st.messageContent = "" then none else some st.messageContent,
      reasoning_content := st.reasoningContent,
      tool_calls := st.toolCalls }
  let response : OpenAIResponseR :=
    { id := "chatcmpl-" ++ randHex,
      created := createdSec,
      model := originalModel,
      choices := [{ message := message, finish_reason := finishReason }],
      usage :=
        { prompt_tokens := usage.promptTokenCount,
          completion_tokens := usage.candidatesTokenCount,
          total_tokens := usage.promptTokenCount + usage.candidatesTokenCount,
          cached_tokens :=
            if usage.cachedContentTokenCount ≠ 0 then
              some usage.cachedContentTokenCount
            else none } }
  (response, st.toolCache, st.sigCache)

/-! ## `routes/openai.js`: `accumulateSSEResponse` -/

/-- The part-level accumulator of `accumulateSSEResponse` (`finalParts`,
`accumulatedThinkingText`, `accumulatedThinkingSignature`,
`accumulatedText`). -/
structure PartAccum where
  finalParts : List PartR := []
  accThinkingText : String := ""
  accThinkingSignature : String := ""
  accText : String := ""
deriving DecidableEq, Repr

/-- `flushThinking` from `accumulateSSEResponse`. -/
def flushThinking (a : PartAccum) : PartAccum :=
  if a.accThinkingText ≠ "" then
    { a with
      finalParts := a.finalParts ++
        [{ thought := true, text := some a.accThinkingText,
           thoughtSignature := a.accThinkingSignature }],
      accThinkingText := "", accThinkingSignature := "" }
  else a

/-- `flushText` from `accumulateSSEResponse`. -/
def flushText (a : PartAccum) : PartAccum :=
  if a.accText ≠ "" then
    { a with
      finalParts := a.finalParts ++ [{ text := some a.accText }],
      accText := "" }
  else a

/-- One iteration of the `for (const part of parts)` loop in
`accumulateSSEResponse`. -/
def accumPartStep (a : PartAccum) (part : PartR) : PartAccum :=
  if part.thought then
    let a := flushText a
    let a := { a with accThinkingText := a.accThinkingText ++ part.text.getD "" }
    if part.thoughtSignature ≠ "" then
      { a with accThinkingSignature := part.thoughtSignature }
    else a
  else if part.functionCall.isSome then
    let a := flushText (flushThinking a)
    { a with finalParts := a.finalParts ++ [part] }
  else
    match part.text with
    | some t =>
      if t = "" then a
      else
        let a := flushThinking a
        { a with accText := a.accText ++ t }
    | none => a

/-- The full accumulator state of `accumulateSSEResponse`. -/
structure AccumState where
  acc : PartAccum := {}
  usageMetadata : UsageMetadataR := {}
  finishReason : String := "STOP"
deriving DecidableEq, Repr

/-- Processing of one parsed `data:` payload inside `accumulateSSEResponse`. -/
def accumChunkStep (st : AccumState) (chunk : SSEChunk) : AccumState :=
  let usageMetadata :=
    match chunk.usageMetadata with
    | some u => u
    | none => st.usageMetadata
  let firstCandidate := chunk.candidates.headD {}
  let finishReason :=
    if firstCandidate.finishReason ≠ "" then firstCandidate.finishReason
    else st.finishReason
  { acc := firstCandidate.content.parts.foldl accumPartStep st.acc,
    usageMetadata := usageMetadata, finishReason := finishReason }

/-- `accumulateSSEResponse` from `routes/openai.js`, over the list of parsed
`data:` payloads of the upstream SSE body. -/
def accumulateSSEResponse (chunks : List SSEChunk) : GoogleResponseR :=
  let st := chunks.foldl accumChunkStep {}
  let a := flushText (flushThinking st.acc)
  { candidates := [{ content := { parts := a.finalParts },
                     finishReason := st.finishReason }],
    usageMetadata := st.usageMetadata }

/-- The finish reason `accumulateSSEResponse` ends up with: the last truthy
`candidates[0].finishReason` seen, defaulting to `STOP`. -/
def accumFinishReason (chunks : List SSEChunk) : String :=
  chunks.foldl (fun fr c => if chunkFin c ≠ "" then chunkFin c else fr) "STOP"

/-! ## `openai/response-converter.js`: `streamGoogleToOpenAI` -/

/-- A tool call accumulated by the streaming converter (with its `index`). -/
structure StreamToolCallR where
  index : Nat := 0
  id : String := ""
  type : String := "function"
  name : String := ""
  argumentsJson : String := ""
  thoughtSignature : String := ""
deriving DecidableEq, Repr

/-- A `delta` object of a streaming chunk.  `role = ""` and
`reasoning_content/content = none` model absent fields; the start chunk
carries `content = some ""`. -/
structure DeltaR where
  role : String := ""
  content : Option String := none
  reasoning_content : Option String := none
  tool_calls : List StreamToolCallR := []
deriving DecidableEq, Repr

/-- An OpenAI streaming chunk as built by `createStreamChunk`. -/
structure StreamChunkR where
  id : String := ""
  object : String := "chat.completion.chunk"
  created : Nat := 0
  model : String := ""
  delta : DeltaR := {}
  finish_reason : Option String := none
  usage : Option OpenAIUsageR := none
deriving DecidableEq, Repr

/-- `createStreamChunk` from `openai/response-converter.js`. -/
def createStreamChunk (id : String) (created : Nat) (model : String)
    (delta : DeltaR) (finishReason : Option String)
    (usage : Option OpenAIUsageR) : StreamChunkR :=
  { id := id, created := created, model := model, delta := delta,
    finish_reason := finishReason, usage := usage }

/-- The generator state of `streamGoogleToOpenAI`, with `out` collecting the
chunks yielded so far. -/
structure StreamState where
  hasEmittedStart : Bool := false
  currentBlockType : String := ""
  currentThinkingSignature : String := ""
  finishReason : String := "stop"
  inputTokens : Nat := 0
  outputTokens : Nat := 0
  cacheReadTokens : Nat := 0
  pendingToolCalls : List StreamToolCallR := []
  toolCache : ToolNameCache := []
  sigCache : SigCache := []
  out : List StreamChunkR := []
deriving DecidableEq, Repr

/-- One iteration of the `for (const part of parts)` loop in
`streamGoogleToOpenAI` (note: unlike the non-streaming converter, the text
branch is checked before the functionCall branch here, as in the source). -/
def streamPartStep (hashHex : String → String) (completionId : String)
    (created nowMs : Nat) (originalModel sessionId : String)
    (st : StreamState) (part : PartR) : StreamState :=
  if part.thought then
    let st :=
      if part.thoughtSignature ≠ "" then
        { st with currentThinkingSignature := part.thoughtSignature }
      else st
    let text := part.text.getD ""
    let st :=
      if text ≠ "" then
        { st with out := st.out ++
            [createStreamChunk completionId created originalModel
              { reasoning_content := some text } none none] }
      else st
    { st with currentBlockType := "thinking" }
  else if part.text.getD "" ≠ "" then
    { st with
      out := st.out ++
        [createStreamChunk completionId created originalModel
          { content := some (part.text.getD "") } none none],
      currentBlockType := "text" }
  else
    match part.functionCall with
    | some fc =>
      let toolId := openaiToolId hashHex fc
      let lookup := getOriginalToolName st.toolCache nowMs sessionId originalModel fc.name
      let originalName := lookup.1.getD fc.name
      let signature := part.thoughtSignature
      let sigCache :=
        if signature ≠ "" && MIN_SIGNATURE_LENGTH ≤ signature.length then
          cacheSignature st.sigCache nowMs toolId signature
        else st.sigCache
      { st with
        pendingToolCalls := st.pendingToolCalls ++
          [{ index := st.pendingToolCalls.length, id := toolId,
             name := originalName, argumentsJson := stringifyArgs fc.argsJson,
             thoughtSignature := signature }],
        finishReason := "tool_calls", currentBlockType := "tool_use",
        toolCache := lookup.2, sigCache := sigCache }
    | none => st

/-- Processing of one parsed `data:` payload in `streamGoogleToOpenAI`. -/
def streamChunkStep (hashHex : String → String) (completionId : String)
    (created nowMs : Nat) (originalModel sessionId : String)
    (st : StreamState) (chunk : SSEChunk) : StreamState :=
  let st :=
    match chunk.usageMetadata with
    | some u =>
      { st with
        inputTokens := if u.promptTokenCount ≠ 0 then u.promptTokenCount else st.inputTokens,
        outputTokens := if u.candidatesTokenCount ≠ 0 then u.candidatesTokenCount else st.outputTokens,
        cacheReadTokens := if u.cachedContentTokenCount ≠ 0 then u.cachedContentTokenCount else st.cacheReadTokens }
    | none => st
  let firstCandidate := chunk.candidates.headD {}
  let parts := firstCandidate.content.parts
  let st :=
    if !st.hasEmittedStart && parts.length > 0 then
      { st with
        hasEmittedStart := true,
        out := st.out ++
          [createStreamChunk completionId created originalModel
            { role := "assistant", content := some "" } none none] }
    else st
  let st := parts.foldl
    (streamPartStep hashHex completionId created nowMs originalModel sessionId) st
  if firstCandidate.finishReason ≠ "" then
    { st with finishReason := mapFinishReason firstCandidate.finishReason }
  else st

/-- `streamGoogleToOpenAI` from `openai/response-converter.js`, over the
parsed `data:` payloads of the upstream body; returns the full list of
yielded chunks together with the final cache states. -/
def streamGoogleToOpenAI (hashHex : String → String) (completionId : String)
    (created nowMs : Nat) (toolCache : ToolNameCache) (sigCache : SigCache)
    (chunks : List SSEChunk) (originalModel sessionId : String) :
    List StreamChunkR × ToolNameCache × SigCache :=
  let st := chunks.foldl
    (streamChunkStep hashHex completionId created nowMs originalModel sessionId)
    { toolCache := toolCache, sigCache := sigCache }
  let out := st.out
  let out :=
    if st.pendingToolCalls.length > 0 then
      out ++ [createStreamChunk completionId created originalModel
        { tool_calls := st.pendingToolCalls } none none]
    else out
  let usage : OpenAIUsageR :=
    { prompt_tokens := st.inputTokens,
      completion_tokens := st.outputTokens,
      total_tokens := st.inputTokens + st.outputTokens,
      cached_tokens :=
        if st.cacheReadTokens > 0 then some st.cacheReadTokens else none }
  (out ++ [createStreamChunk completionId created originalModel {}
      (some st.finishReason) (some usage)],
   st.toolCache, st.sigCache)

/-! ## `gemini/response-converter.js`: `processParts` -/

/-- One `parts.map` step of `processParts`: restore the original tool name
and cache a long-enough signature, threading both caches. -/
def processPartsStep (nowMs : Nat) (sessionId modelName : String)
    (st : List PartR × ToolNameCache × SigCache) (part : PartR) :
    List PartR × ToolNameCache × SigCache :=
  match part.functionCall with
  | some fc =>
    let lookup := getOriginalToolName st.2.1 nowMs sessionId modelName fc.name
    let fc :=
      match lookup.1 with
      | some o => { fc with name := o }
      | none => fc
    let signature := part.thoughtSignature
    let sigCache :=
      if signature ≠ "" && MIN_SIGNATURE_LENGTH ≤ signature.length && fc.id ≠ "" then
        cacheSignature st.2.2 nowMs fc.id signature
      else st.2.2
    (st.1 ++ [{ part with functionCall := some fc }], lookup.2, sigCache)
  | none => (st.1 ++ [part], st.2.1, st.2.2)

/-- `processParts` from `gemini/response-converter.js` (the
`!parts || !Array.isArray(parts)` early return does not arise for a list). -/
def processParts (nowMs : Nat) (sessionId modelName : String)
    (parts : List PartR) (toolCache : ToolNameCache) (sigCache : SigCache) :
    List PartR × ToolNameCache × SigCache :=
  parts.foldl (processPartsStep nowMs sessionId modelName)
    ([], toolCache, sigCache)

/-! ## Session-id derivation -/

/-- The text the OpenAI-family `deriveSessionId`
(`openai/request-converter.js`) extracts from one message: a string content
itself, or the newline-join of the truthy `text` fields of `type:"text"`
blocks of an array content. -/
inductive OAIContentR where
  | strC (s : String)
  | blocksC (bs : List (String × String))
  | nullC
deriving DecidableEq, Repr

/-- An OpenAI chat message, reduced to the fields `deriveSessionId` reads
(each block of an array content is its `(type, text)` pair). -/
structure OAIMessageR where
  role : String := ""
  content : OAIContentR := .nullC
deriving DecidableEq, Repr

/-- Content extraction inside `deriveSessionId`
(`openai/request-converter.js`). -/
def oaiMsgText (m : OAIMessageR) : String :=
  match m.content with
  | .strC s => s
  | .blocksC bs =>
    String.intercalate "\n"
      ((bs.filter (fun b => b.1 = "text" && b.2 ≠ "")).map (fun b => b.2))
  | .nullC => ""

/-- The first user message text `deriveSessionId` hashes, if any. -/
def firstUserTextOAI : List OAIMessageR → Option String
  | [] => none
  | m :: rest =>
    if m.role = "user" && oaiMsgText m ≠ "" then some (oaiMsgText m)
    else firstUserTextOAI rest

/-- `deriveSessionId` from `openai/request-converter.js`: first 32 hex
characters of the SHA-256 digest (`hashHex`) of the first user text, or a
random UUID (`uuid`) when there is none. -/
def deriveSessionIdOAI (hashHex : String → String) (uuid : String)
    (messages : List OAIMessageR) : String :=
  match firstUserTextOAI messages with
  | some t => (hashHex t).take 32
  | none => uuid

/-- A conversation `content` entry of a Gemini-format request. -/
structure ContentG where
  role : String := ""
  parts : List PartR := []
deriving DecidableEq, Repr

/-- The first truthy user part text the Gemini-family `deriveSessionId`
(`gemini/index.js`) hashes, if any. -/
def firstUserTextGem : List ContentG → Option String
  | [] => none
  | c :: rest =>
    if c.role = "user" then
      match c.parts.find? (fun p => decide (p.text.getD "" ≠ "")) with
      | some p => some (p.text.getD "")
      | none => firstUserTextGem rest
    else firstUserTextGem rest

/-- `deriveSessionId` from `gemini/index.js`. -/
def deriveSessionIdGem (hashHex : String → String) (uuid : String)
    (contents : List ContentG) : String :=
  match firstUserTextGem contents with
  | some t => (hashHex t).take 32
  | none => uuid

/-! ## `gemini/index.js`: the inbound Gemini request converter -/

/-- Interface model of a JSON schema reaching the tool converter.  The
`sanitizeSchema`/`cleanSchemaForGemini` helpers live in
`schema-sanitizer.js`, which is not among the core sources (the
specification lists the schema sanitizer helpers as out of scope,
specified only at their interface: schema in, cleaned schema out), so they
are taken as opaque function parameters below.  The embedded code inspects
only the top-level `type` field and the presence of `properties`; all
deeper structure is carried opaquely in `rest`. -/
structure SchemaJ where
  type : Option String := none
  hasProperties : Bool := false
  rest : String := ""
deriving DecidableEq, Repr

/-- A declaration produced by `convertSingleTool`. -/
structure FuncDeclOutR where
  name : String := ""
  description : String := ""
  parameters : SchemaJ := {}
deriving DecidableEq, Repr

/-- An inbound Gemini `functionDeclarations` element. -/
structure GeminiFuncDeclIn where
  name : String := ""
  description : String := ""
  parameters : Option SchemaJ := none
deriving DecidableEq, Repr

/-- An inbound Gemini tool: either format 1 (`functionDeclarations`
present) or format 2 (a bare declaration with a `name`), or something
unrecognized. -/
structure GeminiToolR where
  functionDeclarations : Option (List GeminiFuncDeclIn) := none
  name : String := ""
  description : String := ""
  parameters : Option SchemaJ := none
  input_schema : Option SchemaJ := none
deriving DecidableEq, Repr

/-- An outbound tool entry: a `functionDeclarations` wrapper, or the
unrecognized input returned as-is. -/
inductive ToolOutR where
  | decls (fds : List FuncDeclOutR)
  | raw (t : GeminiToolR)
deriving DecidableEq, Repr

/-- `convertSingleTool` from `tool-converter.js`, threading the tool-name
cache.  `name = ""` models an absent name; `sanitizeSchema(raw) || ...` is
total here because the opaque sanitizer is a total function. -/
def convertSingleTool (sanitizeSchemaF cleanSchemaForGeminiF : SchemaJ → SchemaJ)
    (nowMs : Nat) (name description : String) (parameters : Option SchemaJ)
    (sessionId modelName : String) (tc : ToolNameCache) :
    FuncDeclOutR × ToolNameCache :=
  let originalName := name
  let safeName := sanitizeToolName (some originalName)
  let tc :=
    if sessionId ≠ "" && modelName ≠ "" && safeName ≠ originalName then
      setToolNameMapping tc nowMs sessionId modelName safeName originalName
    else tc
  let rawParams := parameters.getD {}
  let cleanedParams := sanitizeSchemaF rawParams
  let cleanedParams :=
    if getModelFamily modelName = "gemini" then cleanSchemaForGeminiF cleanedParams
    else cleanedParams
  let cleanedParams :=
    if cleanedParams.type.isNone then { cleanedParams with type := some "object" }
    else cleanedParams
  let cleanedParams :=
    if cleanedParams.type = some "object" && !cleanedParams.hasProperties then
      { cleanedParams with hasProperties := true }
    else cleanedParams
  ({ name := safeName, description := description, parameters := cleanedParams }, tc)

/-- One `geminiTools.map` step of `convertGeminiToolsToAntigravity`,
threading the tool-name cache. -/
def geminiToolStep
    (sanitizeSchemaF cleanSchemaForGeminiF : SchemaJ → SchemaJ) (nowMs : Nat)
    (sessionId modelName : String) (acc : List ToolOutR × ToolNameCache)
    (tool : GeminiToolR) : List ToolOutR × ToolNameCache :=
  match tool.functionDeclarations with
  | some fds =>
    let r := fds.foldl (fun (a : List FuncDeclOutR × ToolNameCache) fd =>
      let d := convertSingleTool sanitizeSchemaF cleanSchemaForGeminiF nowMs
        fd.name fd.description fd.parameters sessionId modelName a.2
      (a.1 ++ [d.1], d.2)) ([], acc.2)
    (acc.1 ++ [.decls r.1], r.2)
  | none =>
    if tool.name ≠ "" then
      let params :=
        match tool.parameters with
        | some p => some p
        | none => tool.input_schema
      let d := convertSingleTool sanitizeSchemaF cleanSchemaForGeminiF nowMs
        tool.name tool.description params sessionId modelName acc.2
      (acc.1 ++ [.decls [d.1]], d.2)
    else (acc.1 ++ [.raw tool], acc.2)

/-- `convertGeminiToolsToAntigravity` from `tool-converter.js`. -/
def convertGeminiToolsToAntigravity
    (sanitizeSchemaF cleanSchemaForGeminiF : SchemaJ → SchemaJ) (nowMs : Nat)
    (tools : List GeminiToolR) (sessionId modelName : String)
    (tc : ToolNameCache) : List ToolOutR × ToolNameCache :=
  tools.foldl
    (geminiToolStep sanitizeSchemaF cleanSchemaForGeminiF nowMs sessionId modelName)
    ([], tc)

/-- First pass of `processFunctionCallIds`: assign generated ids
(`idSupply 0`, `idSupply 1`, …) to id-less `functionCall`s in model turns
and collect every function-call id in order. -/
def assignCallIds (idSupply : Nat → String) (contents : List ContentG) :
    List ContentG × List String × Nat :=
  contents.foldl (fun (acc : List ContentG × List String × Nat) c =>
    if c.role = "model" then
      let r := c.parts.foldl (fun (a : List PartR × List String × Nat) part =>
        match part.functionCall with
        | some fc =>
          if fc.id = "" then
            let newId := idSupply a.2.2
            (a.1 ++ [{ part with functionCall := some { fc with id := newId } }],
             a.2.1 ++ [newId], a.2.2 + 1)
          else (a.1 ++ [part], a.2.1 ++ [fc.id], a.2.2)
        | none => (a.1 ++ [part], a.2.1, a.2.2)) ([], acc.2.1, acc.2.2)
      (acc.1 ++ [{ c with parts := r.1 }], r.2.1, r.2.2)
    else (acc.1 ++ [c], acc.2.1, acc.2.2)) ([], [], 0)

/-- Second pass of `processFunctionCallIds`: give id-less
`functionResponse`s in user turns the collected ids, positionally. -/
def assignResponseIds (ids : List String) (contents : List ContentG) :
    List ContentG :=
  (contents.foldl (fun (acc : List ContentG × Nat) c =>
    if c.role = "user" then
      let r := c.parts.foldl (fun (a : List PartR × Nat) part =>
        match part.functionResponse with
        | some fr =>
          if fr.id = "" && a.2 < ids.length then
            (a.1 ++ [{ part with
               functionResponse := some { fr with id := ids.getD a.2 "" } }],
             a.2 + 1)
          else (a.1 ++ [part], a.2)
        | none => (a.1 ++ [part], a.2)) ([], acc.2)
      (acc.1 ++ [{ c with parts := r.1 }], r.2)
    else (acc.1 ++ [c], acc.2)) ([], 0)).1

/-- `processFunctionCallIds` from `gemini/index.js`. -/
def processFunctionCallIds (idSupply : Nat → String)
    (contents : List ContentG) : List ContentG :=
  let r := assignCallIds idSupply contents
  assignResponseIds r.2.1 r.1

/-- `createThoughtPart` from `gemini/index.js` (`text || ' '`). -/
def createThoughtPart (text : String) : PartR :=
  { text := some (if text = "" then " " else text), thought := true }

/-- The merge phase of `processModelThoughts`: attach the last standalone
signature to the last signature-less thought, or prepend a blank thought
when there is none. -/
def thoughtMergeStep (parts : List PartR) : List PartR :=
  let thoughtIdx :=
    ((parts.enum.filter (fun x => x.2.thought && x.2.thoughtSignature = "")).map
      (fun x => x.1)).getLast?
  let sigMatch :=
    (parts.enum.filter (fun x => x.2.thoughtSignature ≠ "" && !x.2.thought)).getLast?
  match thoughtIdx, sigMatch with
  | some ti, some sm =>
    let parts := parts.set ti
      { (parts.getD ti {}) with thoughtSignature := sm.2.thoughtSignature }
    parts.eraseIdx sm.1
  | some _, none => parts
  | none, _ => createThoughtPart " " :: parts

/-- The standalone signature parts collected by `processModelThoughts`
(index and signature, in ascending index order): a truthy signature on a
part that is not a thought, has no `functionCall`, and no truthy text. -/
def standaloneSigs (parts : List PartR) : List (Nat × String) :=
  (parts.enum.filter (fun x =>
    x.2.thoughtSignature ≠ "" && !x.2.thought && x.2.functionCall.isNone
      && x.2.text.getD "" = "")).map (fun x => (x.1, x.2.thoughtSignature))

/-- One index step of the signature-assignment loop of
`processModelThoughts` (state: parts, `sigIndex`, signature cache). -/
def assignSigsStep (nowMs : Nat) (standalone : List (Nat × String))
    (acc : List PartR × Nat × SigCache) (i : Nat) :
    List PartR × Nat × SigCache :=
  let p := acc.1.getD i {}
  if p.functionCall.isSome && p.thoughtSignature = "" then
    if acc.2.1 < standalone.length then
      (acc.1.set i { p with thoughtSignature := (standalone.getD acc.2.1 (0, "")).2 },
       acc.2.1 + 1, acc.2.2)
    else
      let lookup := getCachedSignature acc.2.2 nowMs ((p.functionCall.getD {}).id)
      if lookup.1.getD "" ≠ "" then
        (acc.1.set i { p with thoughtSignature := lookup.1.getD "" }, acc.2.1, lookup.2)
      else (acc.1, acc.2.1, lookup.2)
  else acc

/-- `processModelThoughts` from `gemini/index.js`, threading the signature
cache it reads through `getCachedSignature`. -/
def processModelThoughts (nowMs : Nat) (sigCache : SigCache)
    (content : ContentG) : ContentG × SigCache :=
  let parts := thoughtMergeStep content.parts
  let standalone := standaloneSigs parts
  let r := (List.range parts.length).foldl (assignSigsStep nowMs standalone)
    (parts, 0, sigCache)
  let parts := ((standalone.take r.2.1).reverse).foldl
    (fun ps (x : Nat × String) => ps.eraseIdx x.1) r.1
  ({ content with parts := parts }, r.2.2)

/-- The inner `functionCallingConfig` object. -/
structure FunctionCallingConfigR where
  mode : String := ""
deriving DecidableEq, Repr

/-- A `toolConfig` object. -/
structure ToolConfigR where
  functionCallingConfig : FunctionCallingConfigR := {}
deriving DecidableEq, Repr

/-- An inbound `generationConfig` (`0` models an absent numeric field where
the source combines with `||`; `Option` where it uses `??` or presence). -/
structure GenConfigIn where
  maxOutputTokens : Nat := 0
  max_tokens : Nat := 0
  temperature : Option Int := none
  topP : Option Int := none
  top_p : Option Int := none
  topK : Option Nat := none
  top_k : Option Nat := none
  stopSequences : Option (List String) := none
  thinkingBudget : Nat := 0
  thinking_budget : Nat := 0
deriving DecidableEq, Repr

/-- A `thinkingConfig`: the claude-style spelling carries
`include_thoughts: true` and `thinking_budget`; the gemini-style spelling
carries `includeThoughts: true` and `thinkingBudget` (the boolean is always
`true` and is implied by the constructor). -/
inductive ThinkingConfigR where
  | claudeStyle (thinking_budget : Nat)
  | geminiStyle (thinkingBudget : Nat)
deriving DecidableEq, Repr

/-- A normalized `generationConfig`. -/
structure GenConfigOut where
  maxOutputTokens : Nat := 0
  temperature : Int := 1
  topP : Int := 1
  topK : Nat := 50
  stopSequences : Option (List String) := none
  thinkingConfig : Option ThinkingConfigR := none
deriving DecidableEq, Repr

/-- `normalizeGenerationConfig` from `gemini/index.js` (`DEFAULTS` are
32000 / 1 / 1 / 50 / 16000). -/
def normalizeGenerationConfig (config : GenConfigIn) (enableThinking : Bool)
    (modelName : String) : GenConfigOut :=
  let modelFamily := getModelFamily modelName
  let isGemini := modelFamily = "gemini"
  let maxOut :=
    if config.maxOutputTokens ≠ 0 then config.maxOutputTokens
    else if config.max_tokens ≠ 0 then config.max_tokens
    else 32000
  let maxOut :=
    if isGemini && GEMINI_MAX_OUTPUT_TOKENS < maxOut then GEMINI_MAX_OUTPUT_TOKENS
    else maxOut
  let temperature := config.temperature.getD 1
  let topP :=
    match config.topP with
    | some v => v
    | none => config.top_p.getD 1
  let topK :=
    match config.topK with
    | some v => v
    | none => config.top_k.getD 50
  let base : GenConfigOut :=
    { maxOutputTokens := maxOut, temperature := temperature, topP := topP,
      topK := topK, stopSequences := config.stopSequences }
  if enableThinking then
    let tb :=
      if config.thinkingBudget ≠ 0 then config.thinkingBudget
      else if config.thinking_budget ≠ 0 then config.thinking_budget
      else 16000
    if modelFamily = "claude" then
      { base with thinkingConfig := some (.claudeStyle tb) }
    else if isGemini then
      { base with thinkingConfig := some (.geminiStyle tb) }
    else base
  else base

/-- A `systemInstruction`: a bare string, or an object (with or without a
`parts` field, and an optional `role`). -/
inductive SysInstrR where
  | strI (s : String)
  | objI (hasParts : Bool) (role : Option String) (parts : List PartR)
deriving DecidableEq, Repr

/-- An inbound Gemini request body, reduced to the fields
`convertGeminiToGoogle` reads (`safetySettings` as a presence flag, since
it is only ever deleted). -/
structure GeminiRequestR where
  contents : Option (List ContentG) := none
  generationConfig : Option GenConfigIn := none
  safetySettings : Bool := false
  tools : Option (List GeminiToolR) := none
  toolConfig : Option ToolConfigR := none
  systemInstruction : Option SysInstrR := none
deriving DecidableEq, Repr

/-- The translated native request (the `safetySettings` field is deleted,
so the output shape has none). -/
structure GoogleRequestR where
  contents : Option (List ContentG) := none
  generationConfig : GenConfigOut := {}
  tools : Option (List ToolOutR) := none
  toolConfig : Option ToolConfigR := none
  systemInstruction : Option SysInstrR := none
  sessionId : String := ""
deriving DecidableEq, Repr

/-- The native request wrapper. -/
structure GoogleRequestBodyR where
  project : String := ""
  requestId : String := ""
  request : GoogleRequestR := {}
  model : String := ""
  userAgent : String := ""
deriving DecidableEq, Repr

/-- `convertGeminiToGoogle` from `gemini/index.js`.  Opaque environment:
the two schema-sanitizer helpers, `hashHex` (SHA-256 hex digest), `uuid`
(`crypto.randomUUID()` fallback), `requestId` (`generateRequestId()`),
`idSupply` (the `call_<now>_<random>` generator, indexed by generation
order), `nowMs` (`Date.now()`), and the two cache states.  The JS deep
clone is the identity here (the embedding is pure). -/
def convertGeminiToGoogle
    (sanitizeSchemaF cleanSchemaForGeminiF : SchemaJ → SchemaJ)
    (hashHex : String → String) (uuid requestId : String)
    (idSupply : Nat → String) (nowMs : Nat) (toolCache : ToolNameCache)
    (sigCache : SigCache) (geminiRequest : GeminiRequestR)
    (modelName projectId : String) :
    GoogleRequestBodyR × ToolNameCache × SigCache :=
  let actualModelName := mapModelName modelName
  let enableThinking := isThinkingModel actualModelName
  let processed : Option (List ContentG) × SigCache :=
    match geminiRequest.contents with
    | some cs =>
      let cs := processFunctionCallIds idSupply cs
      if enableThinking then
        let r := cs.foldl (fun (acc : List ContentG × SigCache) c =>
          if c.role = "model" then
            let pr := processModelThoughts nowMs acc.2 c
            (acc.1 ++ [pr.1], pr.2)
          else (acc.1 ++ [c], acc.2)) ([], sigCache)
        (some r.1, r.2)
      else (some cs, sigCache)
    | none => (none, sigCache)
  let contents := processed.1
  let sigCache := processed.2
  let sessionId := deriveSessionIdGem hashHex uuid (contents.getD [])
  let generationConfig := normalizeGenerationConfig
    (geminiRequest.generationConfig.getD {}) enableThinking actualModelName
  let converted :=
    match geminiRequest.tools with
    | some ts =>
      let r := convertGeminiToolsToAntigravity sanitizeSchemaF
        cleanSchemaForGeminiF nowMs ts sessionId actualModelName toolCache
      (some r.1, r.2)
    | none => (none, toolCache)
  let tools := converted.1
  let toolCache := converted.2
  let toolConfig :=
    match geminiRequest.toolConfig with
    | some c => some c
    | none =>
      match tools with
      | some ts =>
        if ts.length > 0 then
          some { functionCallingConfig := { mode := "VALIDATED" } }
        else none
      | none => none
  let systemInstruction :=
    match geminiRequest.systemInstruction with
    | some (.strI s) => some (SysInstrR.objI true none [{ text := some s }])
    | some (.objI true _ ps) => some (SysInstrR.objI true none ps)
    | some (.objI false r ps) => some (SysInstrR.objI false r ps)
    | none => none
  ({ project := projectId, requestId := requestId,
     request :=
       { contents := contents, generationConfig := generationConfig,
         tools := tools, toolConfig := toolConfig,
         systemInstruction := systemInstruction, sessionId := sessionId },
     model := actualModelName, userAgent := "antigravity" },
   toolCache, sigCache)

/-! ## Helper lemmas -/

/-- Conditional truncation to 128 is plain truncation. -/
theorem take128_cond_eq (l : List Char) :
    (if l.length > 128 then l.take 128 else l) = l.take 128 := by
  by_cases h : l.length > 128
  · simp [h]
  · simp [h, List.take_of_length_le (Nat.le_of_not_lt h)]

/-- Every character surviving `trimUnderscores` was in the input. -/
theorem trimUnderscores_subset (cs : List Char) :
    ∀ c ∈ trimUnderscores cs, c ∈ cs := by
  intro c hc
  unfold trimUnderscores at hc
  rw [List.mem_reverse] at hc
  have h1 := (List.dropWhile_sublist (l := (cs.dropWhile (· = '_')).reverse)
    (· = '_')).subset hc
  rw [List.mem_reverse] at h1
  exact (List.dropWhile_sublist (l := cs) (· = '_')).subset h1

/-- The character list underlying `sanitizeToolName` output is nonempty,
short, and drawn from the allowed class. -/
theorem sanitizeToolName_data_props (x : Option String) :
    (sanitizeToolName x).data ≠ [] ∧ (sanitizeToolName x).data.length ≤ 128 ∧
    ∀ c ∈ (sanitizeToolName x).data, isAllowedChar c = true := by
  match x with
  | none => exact ⟨by decide, by decide, by decide⟩
  | some s =>
    by_cases hs : s = ""
    · subst hs; exact ⟨by decide, by decide, by decide⟩
    · show _ ∧ _ ∧ _
      simp only [sanitizeToolName, if_neg hs]
      set l0 := s.data.map (fun c => if isAllowedChar c then c else '_') with hl0
      have hall0 : ∀ c ∈ l0, isAllowedChar c = true := by
        intro c hc
        rcases List.mem_map.1 hc with ⟨a, _, ha⟩
        by_cases h : isAllowedChar a
        · rw [if_pos h] at ha; rwa [← ha]
        · rw [if_neg h] at ha; rw [← ha]; decide
      set l1 := trimUnderscores l0 with hl1
      have hall1 : ∀ c ∈ l1, isAllowedChar c = true := fun c hc =>
        hall0 c (trimUnderscores_subset l0 c hc)
      set l2 := if l1.isEmpty then "tool".data else l1 with hl2
      have hall2 : ∀ c ∈ l2, isAllowedChar c = true := by
        rw [hl2]; split
        · decide
        · exact hall1
      have hne2 : l2 ≠ [] := by
        rw [hl2]; split
        · decide
        · next h => simpa [List.isEmpty_iff] using h
      refine ⟨?_, ?_, ?_⟩
      · rw [take128_cond_eq]
        cases h2 : l2 with
        | nil => exact absurd h2 hne2
        | cons a t => simp [h2]
      · rw [take128_cond_eq]
        simp
      · rw [take128_cond_eq]
        intro c hc
        exact hall2 c (List.take_subset 128 l2 hc)

/-- `sanitizeToolName` never returns the empty string. -/
theorem sanitizeToolName_ne_empty (x : Option String) : sanitizeToolName x ≠ "" := by
  intro h
  have := (sanitizeToolName_data_props x).1
  rw [h] at this
  exact this rfl

/-! ## Claim C4 -/

/-- Claim C4, counterexample: `claude-3-5-haiku-20241022` ends in a date
suffix, yet `mapModelName` does not strip it — the haiku redirect wins and
the result is `gemini-2.5-flash-lite`, not the suffix-stripped name. -/
theorem mapModelName_haiku_date_counterexample :
    hasDateSuffix "claude-3-5-haiku-20241022" = true ∧
    stripDateSuffix "claude-3-5-haiku-20241022" = "claude-3-5-haiku" ∧
    mapModelName "claude-3-5-haiku-20241022" ≠ "claude-3-5-haiku" ∧
    mapModelName "claude-3-5-haiku-20241022" = "gemini-2.5-flash-lite" := by
  refine ⟨by decide, by decide, ?_, by decide⟩
  decide

/-- Claim C4, amended: a model name containing "haiku" (case-insensitively)
is mapped to exactly `gemini-2.5-flash-lite`; a name not containing "haiku"
whose last segment matches `-YYYYMMDD` has that date suffix stripped (the
haiku redirect takes precedence over date-suffix stripping). -/
theorem mapModelName_amended (m : String) :
    (strIncludes (jsToLower m) "haiku" = true →
      mapModelName m = "gemini-2.5-flash-lite") ∧
    (strIncludes (jsToLower m) "haiku" = false → hasDateSuffix m = true →
      mapModelName m = stripDateSuffix m) := by
  constructor
  · intro h
    have hm : m ≠ "" := by
      intro e
      rw [e] at h
      exact absurd h (by decide)
    simp [mapModelName, hm, h]
  · intro h1 h2
    have hm : m ≠ "" := by
      intro e
      rw [e] at h2
      exact absurd h2 (by decide)
    simp [mapModelName, hm, h1, h2]

/-- Witness for the amended C4 at concrete inputs. -/
theorem mapModelName_amended_witness :
    mapModelName "Claude-3-Haiku" = "gemini-2.5-flash-lite" ∧
    mapModelName "claude-sonnet-4-5-20250929" =
      stripDateSuffix "claude-sonnet-4-5-20250929" :=
  ⟨(mapModelName_amended "Claude-3-Haiku").1 (by decide),
   (mapModelName_amended "claude-sonnet-4-5-20250929").2 (by decide) (by decide)⟩

/-! ## Claim C5 -/

/-- Claim C5: for every tool name string, `sanitizeToolName` computes
exactly the reference pipeline — replace characters outside
`[A-Za-z0-9_-]` with `_`, trim leading/trailing `_`, substitute "tool" for
empty, truncate to 128. -/
theorem sanitizeToolName_eq_spec (s : String) :
    sanitizeToolName (some s) = sanitizeToolNameSpec s := by
  by_cases hs : s = ""
  · subst hs; decide
  · simp only [sanitizeToolName, sanitizeToolNameSpec, if_neg hs]
    rw [take128_cond_eq]

/-! ## Claim C8 -/

/-- Claim C8: the OpenAI finish-reason mapping sends STOP to stop,
MAX_TOKENS to length, TOOL_USE and FUNCTION_CALL to tool_calls, and SAFETY
to content_filter. -/
theorem mapFinishReason_spec :
    mapFinishReason "STOP" = "stop" ∧
    mapFinishReason "MAX_TOKENS" = "length" ∧
    mapFinishReason "TOOL_USE" = "tool_calls" ∧
    mapFinishReason "FUNCTION_CALL" = "tool_calls" ∧
    mapFinishReason "SAFETY" = "content_filter" := by
  refine ⟨rfl, rfl, rfl, rfl, rfl⟩

/-! ## Claim C9 -/

/-- Claim C9: on every input (including the null/undefined/non-string
inputs modelled by `none`), `sanitizeToolName` totally computes a
non-empty name of at most 128 characters, all from `[A-Za-z0-9_-]`. -/
theorem sanitizeToolName_safe (x : Option String) :
    sanitizeToolName x ≠ "" ∧ (sanitizeToolName x).length ≤ 128 ∧
    ∀ c ∈ (sanitizeToolName x).data, isAllowedChar c = true := by
  obtain ⟨h1, h2, h3⟩ := sanitizeToolName_data_props x
  exact ⟨sanitizeToolName_ne_empty x, h2, h3⟩

/-! ## Claim C3 -/

/-- Claim C3: for each inbound family, when a first user text exists the
derived session id is the first 32 characters of the SHA-256 hex digest
(`hashHex`) of that text — so byte-identical first user texts give the same
id regardless of the rest of the request, requests with no user text get
the freshly generated UUID, and two texts whose truncated digests differ
get different ids (the digest inequality is exactly SHA-256 collision
resistance on these inputs, a property of the external hash, not of this
code). -/
theorem deriveSessionId_spec :
    (∀ (hashHex : String → String) (uuid t : String) (msgs : List OAIMessageR),
        firstUserTextOAI msgs = some t →
        deriveSessionIdOAI hashHex uuid msgs = (hashHex t).take 32) ∧
    (∀ (hashHex : String → String) (u1 u2 t : String)
        (m1 m2 : List OAIMessageR),
        firstUserTextOAI m1 = some t → firstUserTextOAI m2 = some t →
        deriveSessionIdOAI hashHex u1 m1 = deriveSessionIdOAI hashHex u2 m2) ∧
    (∀ (hashHex : String → String) (uuid : String) (msgs : List OAIMessageR),
        firstUserTextOAI msgs = none →
        deriveSessionIdOAI hashHex uuid msgs = uuid) ∧
    (∀ (hashHex : String → String) (u1 u2 t1 t2 : String)
        (m1 m2 : List OAIMessageR),
        firstUserTextOAI m1 = some t1 → firstUserTextOAI m2 = some t2 →
        (hashHex t1).take 32 ≠ (hashHex t2).take 32 →
        deriveSessionIdOAI hashHex u1 m1 ≠ deriveSessionIdOAI hashHex u2 m2) ∧
    (∀ (hashHex : String → String) (uuid t : String) (cs : List ContentG),
        firstUserTextGem cs = some t →
        deriveSessionIdGem hashHex uuid cs = (hashHex t).take 32) ∧
    (∀ (hashHex : String → String) (u1 u2 t : String) (c1 c2 : List ContentG),
        firstUserTextGem c1 = some t → firstUserTextGem c2 = some t →
        deriveSessionIdGem hashHex u1 c1 = deriveSessionIdGem hashHex u2 c2) ∧
    (∀ (hashHex : String → String) (uuid : String) (cs : List ContentG),
        firstUserTextGem cs = none →
        deriveSessionIdGem hashHex uuid cs = uuid) ∧
    (∀ (hashHex : String → String) (u1 u2 t1 t2 : String)
        (c1 c2 : List ContentG),
        firstUserTextGem c1 = some t1 → firstUserTextGem c2 = some t2 →
        (hashHex t1).take 32 ≠ (hashHex t2).take 32 →
        deriveSessionIdGem hashHex u1 c1 ≠ deriveSessionIdGem hashHex u2 c2) := by
  refine ⟨?_, ?_, ?_, ?_, ?_, ?_, ?_, ?_⟩
  · intro hashHex uuid t msgs h
    simp [deriveSessionIdOAI, h]
  · intro hashHex u1 u2 t m1 m2 h1 h2
    simp [deriveSessionIdOAI, h1, h2]
  · intro hashHex uuid msgs h
    simp [deriveSessionIdOAI, h]
  · intro hashHex u1 u2 t1 t2 m1 m2 h1 h2 hne
    simpa [deriveSessionIdOAI, h1, h2] using hne
  · intro hashHex uuid t cs h
    simp [deriveSessionIdGem, h]
  · intro hashHex u1 u2 t c1 c2 h1 h2
    simp [deriveSessionIdGem, h1, h2]
  · intro hashHex uuid cs h
    simp [deriveSessionIdGem, h]
  · intro hashHex u1 u2 t1 t2 c1 c2 h1 h2 hne
    simpa [deriveSessionIdGem, h1, h2] using hne

/-- Witness for C3 at concrete inputs: a one-user-message conversation in
each family, with a concrete digest function. -/
theorem deriveSessionId_spec_witness :
    deriveSessionIdOAI (fun s => s ++ s) "u"
      [{ role := "user", content := .strC "hi" }] = ("hihi").take 32 ∧
    deriveSessionIdOAI (fun s => s ++ s) "u" [{ role := "system", content := .strC "x" }] = "u" ∧
    deriveSessionIdGem (fun s => s ++ s) "v"
      [{ role := "user", parts := [{ text := some "hello" }] }] =
      ("hellohello").take 32 := by
  refine ⟨?_, ?_, ?_⟩
  · exact deriveSessionId_spec.1 (fun s => s ++ s) "u" "hi" _ (by decide)
  · exact deriveSessionId_spec.2.2.1 (fun s => s ++ s) "u" _ (by decide)
  · exact deriveSessionId_spec.2.2.2.2.1 (fun s => s ++ s) "v" "hello" _ (by decide)

/-! ## Claim C7 -/

/-- Each `geminiToolStep` appends exactly one output tool. -/
theorem geminiToolStep_length
    (sanF cleanF : SchemaJ → SchemaJ) (nowMs : Nat) (sessionId modelName : String)
    (acc : List ToolOutR × ToolNameCache) (tool : GeminiToolR) :
    (geminiToolStep sanF cleanF nowMs sessionId modelName acc tool).1.length =
      acc.1.length + 1 := by
  unfold geminiToolStep
  cases tool.functionDeclarations <;> simp
  split <;> simp

/-- `convertGeminiToolsToAntigravity` yields one output entry per input
tool. -/
theorem convertGeminiToolsToAntigravity_length
    (sanF cleanF : SchemaJ → SchemaJ) (nowMs : Nat) (tools : List GeminiToolR)
    (sessionId modelName : String) (tc : ToolNameCache) :
    (convertGeminiToolsToAntigravity sanF cleanF nowMs tools sessionId
      modelName tc).1.length = tools.length := by
  unfold convertGeminiToolsToAntigravity
  have h : ∀ (ts : List GeminiToolR) (acc : List ToolOutR × ToolNameCache),
      ((ts.foldl (geminiToolStep sanF cleanF nowMs sessionId modelName) acc).1).length =
        acc.1.length + ts.length := by
    intro ts
    induction ts with
    | nil => intro acc; simp
    | cons t ts ih =>
      intro acc
      rw [List.foldl_cons, ih, geminiToolStep_length]
      simp [List.length_cons]
      omega
  simpa using h tools ([], tc)

/-- The `toolConfig` of the translated request: the inbound one when
present, else VALIDATED exactly when the (length-preserving) tool
conversion produced a non-empty array. -/
theorem convertGeminiToGoogle_toolConfig_eq
    (sanF cleanF : SchemaJ → SchemaJ) (hashHex : String → String)
    (uuid requestId : String) (idSupply : Nat → String) (nowMs : Nat)
    (tc : ToolNameCache) (sc : SigCache) (req : GeminiRequestR)
    (modelName projectId : String) :
    (convertGeminiToGoogle sanF cleanF hashHex uuid requestId idSupply nowMs
      tc sc req modelName projectId).1.request.toolConfig =
      match req.toolConfig with
      | some c => some c
      | none =>
        match req.tools with
        | some ts =>
          if 0 < ts.length then
            some { functionCallingConfig := { mode := "VALIDATED" } }
          else none
        | none => none := by
  unfold convertGeminiToGoogle
  cases hc : req.toolConfig <;> cases ht : req.tools <;>
    simp [hc, ht, convertGeminiToolsToAntigravity_length]

/-- Claim C7, counterexample: a Gemini request carrying a non-empty tools
array and its own `toolConfig` (mode AUTO) is translated with that
toolConfig kept — the mode is not forced to VALIDATED. -/
theorem convertGeminiToGoogle_toolConfig_counterexample :
    ((convertGeminiToGoogle id id (fun _ => "") "u" "r" (fun _ => "") 0 [] []
        { tools := some [{ name := "t" }],
          toolConfig := some { functionCallingConfig := { mode := "AUTO" } } }
        "gemini-2.5-pro" "p").1.request.tools).getD [] ≠ [] ∧
    (convertGeminiToGoogle id id (fun _ => "") "u" "r" (fun _ => "") 0 [] []
        { tools := some [{ name := "t" }],
          toolConfig := some { functionCallingConfig := { mode := "AUTO" } } }
        "gemini-2.5-pro" "p").1.request.toolConfig ≠
      some { functionCallingConfig := { mode := "VALIDATED" } } := by
  refine ⟨by decide, by decide⟩

/-- Claim C7, amended: when the inbound request carries no `toolConfig` of
its own, a non-empty tools array forces
`toolConfig.functionCallingConfig.mode = "VALIDATED"` in the native
request; an inbound `toolConfig` is passed through unchanged. -/
theorem convertGeminiToGoogle_toolConfig_amended
    (sanF cleanF : SchemaJ → SchemaJ) (hashHex : String → String)
    (uuid requestId : String) (idSupply : Nat → String) (nowMs : Nat)
    (tc : ToolNameCache) (sc : SigCache) (req : GeminiRequestR)
    (modelName projectId : String) :
    (req.toolConfig = none → ∀ ts, req.tools = some ts → ts ≠ [] →
      (convertGeminiToGoogle sanF cleanF hashHex uuid requestId idSupply nowMs
        tc sc req modelName projectId).1.request.toolConfig =
        some { functionCallingConfig := { mode := "VALIDATED" } }) ∧
    (∀ c, req.toolConfig = some c →
      (convertGeminiToGoogle sanF cleanF hashHex uuid requestId idSupply nowMs
        tc sc req modelName projectId).1.request.toolConfig = some c) := by
  constructor
  · intro h ts hts hne
    rw [convertGeminiToGoogle_toolConfig_eq]
    simp [h, hts, List.length_pos.2 hne]
  · intro c h
    rw [convertGeminiToGoogle_toolConfig_eq]
    simp [h]

/-- Witness for the amended C7 at concrete requests. -/
theorem convertGeminiToGoogle_toolConfig_amended_witness :
    (convertGeminiToGoogle id id (fun _ => "") "u" "r" (fun _ => "") 0 [] []
        { tools := some [{ name := "t" }] } "gemini-2.5-pro" "p").1.request.toolConfig =
      some { functionCallingConfig := { mode := "VALIDATED" } } ∧
    (convertGeminiToGoogle id id (fun _ => "") "u" "r" (fun _ => "") 0 [] []
        { tools := some [{ name := "t" }],
          toolConfig := some { functionCallingConfig := { mode := "AUTO" } } }
        "gemini-2.5-pro" "p").1.request.toolConfig =
      some { functionCallingConfig := { mode := "AUTO" } } :=
  ⟨(convertGeminiToGoogle_toolConfig_amended id id (fun _ => "") "u" "r"
      (fun _ => "") 0 [] [] { tools := some [{ name := "t" }] }
      "gemini-2.5-pro" "p").1 rfl [{ name := "t" }] rfl (by decide),
   (convertGeminiToGoogle_toolConfig_amended id id (fun _ => "") "u" "r"
      (fun _ => "") 0 [] []
      { tools := some [{ name := "t" }],
        toolConfig := some { functionCallingConfig := { mode := "AUTO" } } }
      "gemini-2.5-pro" "p").2
      { functionCallingConfig := { mode := "AUTO" } } rfl⟩

/-! ## Claim C2 -/

/-- The string contains no colon (derived session ids are 32 hex characters
or UUIDs, model names are ASCII identifiers; neither ever contains one). -/
def noColon (s : String) : Bool :=
  s.data.all (fun c => decide (c ≠ ':'))

theorem noColon_spec (s : String) (h : noColon s = true) :
    ∀ c ∈ s.data, c ≠ ':' := by
  intro c hc
  have := List.all_eq_true.1 h c hc
  simpa using this

/-- Splitting at a double-colon separator is unambiguous when neither left
part contains a colon. -/
theorem append_sep_inj (a : List Char) (u : List Char) (b : List Char) (v : List Char)
    (ha : ∀ c ∈ a, c ≠ ':') (hb : ∀ c ∈ b, c ≠ ':')
    (h : a ++ ':' :: ':' :: u = b ++ ':' :: ':' :: v) : a = b ∧ u = v := by
  induction a generalizing b with
  | nil =>
    cases b with
    | nil => simpa using h
    | cons d b' =>
      simp only [List.nil_append, List.cons_append, List.cons.injEq] at h
      exact absurd h.1.symm (hb d (by simp))
  | cons c a' ih =>
    cases b with
    | nil =>
      simp only [List.nil_append, List.cons_append, List.cons.injEq] at h
      exact absurd h.1 (ha c (by simp))
    | cons d b' =>
      simp only [List.cons_append, List.cons.injEq] at h
      obtain ⟨hcd, h'⟩ := h
      have hr := ih b' (fun x hx => ha x (List.mem_cons_of_mem _ hx))
        (fun x hx => hb x (List.mem_cons_of_mem _ hx)) h'
      exact ⟨by rw [hcd, hr.1], hr.2⟩

theorem makeKey_data (s m safe : String) :
    (makeKey s m safe).data =
      s.data ++ ':' :: ':' :: (m.data ++ ':' :: ':' :: safe.data) := by
  have h2 : ("::" : String).data = [':', ':'] := rfl
  simp [makeKey, String.data_append, h2, List.append_assoc]

/-- Distinct colon-free `(session, model)` pairs produce distinct cache
keys for the same safe name. -/
theorem makeKey_inj (s1 m1 s2 m2 safe : String)
    (hs1 : noColon s1 = true) (hm1 : noColon m1 = true)
    (hs2 : noColon s2 = true) (hm2 : noColon m2 = true)
    (hne : s1 ≠ s2 ∨ m1 ≠ m2) :
    makeKey s1 m1 safe ≠ makeKey s2 m2 safe := by
  intro h
  have hd := congrArg String.data h
  rw [makeKey_data, makeKey_data] at hd
  obtain ⟨h1, h2⟩ := append_sep_inj _ _ _ _ (noColon_spec s1 hs1)
    (noColon_spec s2 hs2) hd
  obtain ⟨h3, _⟩ := append_sep_inj _ _ _ _ (noColon_spec m1 hm1)
    (noColon_spec m2 hm2) h2
  cases hne with
  | inl h => exact h (String.ext h1)
  | inr h => exact h (String.ext h3)

theorem find?_map_replace {α : Type} (ps : JsMap α) (k : String) (v : α)
    (h : ps.any (fun p => decide (p.1 = k)) = true) :
    (ps.map (fun p => if p.1 = k then (k, v) else p)).find?
      (fun p => decide (p.1 = k)) = some (k, v) := by
  induction ps with
  | nil => simp at h
  | cons p ps ih =>
    by_cases hp : p.1 = k
    · simp [List.find?_cons, hp]
    · have h' : ps.any (fun q => decide (q.1 = k)) = true := by
        simpa [List.any_cons, hp] using h
      simpa [List.find?_cons, hp] using ih h'

theorem find?_append_singleton_self {α : Type} (ps : JsMap α) (k : String) (v : α)
    (h : ps.any (fun p => decide (p.1 = k)) = false) :
    (ps ++ [(k, v)]).find? (fun p => decide (p.1 = k)) = some (k, v) := by
  rw [List.find?_append]
  have hnone : ps.find? (fun p => decide (p.1 = k)) = none := by
    rw [List.find?_eq_none]
    intro x hx
    have := List.any_eq_false.1 h x hx
    simpa using this
  rw [hnone]
  simp [List.find?_cons]

theorem find?_jsMapSet_self {α : Type} (m : JsMap α) (k : String) (v : α) :
    (jsMapSet m k v).find? (fun p => decide (p.1 = k)) = some (k, v) := by
  unfold jsMapSet
  split
  next h => exact find?_map_replace m k v h
  next h =>
    exact find?_append_singleton_self m k v
      (by simp only [Bool.not_eq_true] at h; exact h)

theorem find?_map_replace_ne {α : Type} (ps : JsMap α) (k k' : String) (v : α)
    (hne : k' ≠ k) :
    (ps.map (fun p => if p.1 = k then (k, v) else p)).find?
      (fun p => decide (p.1 = k')) = ps.find? (fun p => decide (p.1 = k')) := by
  induction ps with
  | nil => rfl
  | cons p ps ih =>
    by_cases hp : p.1 = k
    · have h1 : ¬ (k = k') := fun hh => hne hh.symm
      have h2 : ¬ (p.1 = k') := by rw [hp]; exact h1
      simp [List.find?_cons, hp, h1, h2, ih]
    · by_cases hq : p.1 = k' <;> simp [List.find?_cons, hp, hq, hne, ih]

theorem find?_append_singleton_ne {α : Type} (ps : JsMap α) (k k' : String) (v : α)
    (hne : k' ≠ k) :
    (ps ++ [(k, v)]).find? (fun p => decide (p.1 = k')) =
      ps.find? (fun p => decide (p.1 = k')) := by
  rw [List.find?_append]
  have h1 : ([(k, v)] : JsMap α).find? (fun p => decide (p.1 = k')) = none := by
    have : ¬ (k = k') := fun hh => hne hh.symm
    simp [List.find?_cons, this]
  rw [h1]
  cases ps.find? (fun p => decide (p.1 = k')) <;> rfl

theorem find?_jsMapSet_ne {α : Type} (m : JsMap α) (k k' : String) (v : α)
    (hne : k' ≠ k) :
    (jsMapSet m k v).find? (fun p => decide (p.1 = k')) =
      m.find? (fun p => decide (p.1 = k')) := by
  unfold jsMapSet
  split
  · exact find?_map_replace_ne m k k' v hne
  · exact find?_append_singleton_ne m k k' v hne

theorem jsMapSet_length_le {α : Type} (m : JsMap α) (k : String) (v : α) :
    (jsMapSet m k v).length ≤ m.length + 1 := by
  unfold jsMapSet
  split
  · simp
  · simp

theorem pruneSize_of_le (m : ToolNameCache) (t : Nat) (h : m.length ≤ t) :
    pruneSize m t = m := by
  simp [pruneSize, h]

/-- Fresh mappings survive insertion and pruning: looking a safe name up
right after storing it (within TTL, on a cache currently within its size
cap) returns the stored original. -/
theorem get_after_set (m : ToolNameCache) (t0 t1 : Nat) (s mod safe orig : String)
    (hlen : m.length ≤ TOOLNAME_MAX_ENTRIES) (hsafe : safe ≠ "")
    (horig : orig ≠ "") (hdiff : safe ≠ orig)
    (httl : t1 - t0 ≤ TOOLNAME_TTL_MS) :
    (getOriginalToolName (setToolNameMapping m t0 s mod safe orig) t1 s mod safe).1 =
      some orig := by
  unfold setToolNameMapping
  split
  next h =>
    exfalso
    simp [hsafe, horig, hdiff] at h
  next h =>
    have hfind : (pruneSize
        (jsMapSet m (makeKey s mod safe) ⟨orig, t0⟩) TOOLNAME_MAX_ENTRIES).find?
        (fun p => decide (p.1 = makeKey s mod safe)) =
        some (makeKey s mod safe, ⟨orig, t0⟩) := by
      by_cases hany : m.any (fun p => decide (p.1 = makeKey s mod safe)) = true
      · have hl : (jsMapSet m (makeKey s mod safe)
            (⟨orig, t0⟩ : ToolNameEntry)).length ≤ TOOLNAME_MAX_ENTRIES := by
          unfold jsMapSet
          rw [if_pos hany]
          simpa using hlen
        rw [pruneSize_of_le _ _ hl]
        exact find?_jsMapSet_self m _ _
      · have hform : jsMapSet m (makeKey s mod safe) (⟨orig, t0⟩ : ToolNameEntry) =
            m ++ [(makeKey s mod safe, ⟨orig, t0⟩)] := by
          unfold jsMapSet
          rw [if_neg hany]
        by_cases hl : m.length + 1 ≤ TOOLNAME_MAX_ENTRIES
        · have hl' : (jsMapSet m (makeKey s mod safe)
              (⟨orig, t0⟩ : ToolNameEntry)).length ≤ TOOLNAME_MAX_ENTRIES := by
            rw [hform]
            simpa using hl
          rw [pruneSize_of_le _ _ hl']
          exact find?_jsMapSet_self m _ _
        · have hleq : m.length = TOOLNAME_MAX_ENTRIES := by omega
          rw [hform]
          unfold pruneSize
          rw [if_neg (by simp [hleq])]
          have hd : (m ++ [(makeKey s mod safe,
              (⟨orig, t0⟩ : ToolNameEntry))]).length - TOOLNAME_MAX_ENTRIES = 1 := by
            simp [hleq]
          rw [hd, List.drop_append_of_le_length (by rw [hleq]; decide)]
          rw [List.find?_append]
          have hdropnone : (m.drop 1).find?
              (fun p => decide (p.1 = makeKey s mod safe)) = none := by
            rw [List.find?_eq_none]
            intro x hx
            have hxm : x ∈ m := List.drop_subset 1 m hx
            have hany' : m.any (fun p => decide (p.1 = makeKey s mod safe)) = false := by
              simp only [Bool.not_eq_true] at hany
              exact hany
            have := List.any_eq_false.1 hany' x hxm
            simpa using this
          rw [hdropnone]
          simp [List.find?_cons]
    unfold getOriginalToolName
    rw [if_neg hsafe]
    simp only [hfind]
    rw [if_neg (Nat.not_lt.mpr httl)]
    rw [if_neg horig]

/-- Storing under one cache key leaves lookups of another key unchanged,
provided the cache is strictly within its size cap (so no pruning). -/
theorem get_after_set_other (m : ToolNameCache) (t0 t1 : Nat)
    (s1 m1 s2 m2 safe orig : String) (hlen : m.length < TOOLNAME_MAX_ENTRIES)
    (hkey : makeKey s2 m2 safe ≠ makeKey s1 m1 safe) :
    (getOriginalToolName (setToolNameMapping m t0 s1 m1 safe orig) t1 s2 m2 safe).1 =
      (getOriginalToolName m t1 s2 m2 safe).1 := by
  unfold setToolNameMapping
  split
  · rfl
  · have hl : (jsMapSet m (makeKey s1 m1 safe)
        (⟨orig, t0⟩ : ToolNameEntry)).length ≤ TOOLNAME_MAX_ENTRIES :=
      le_trans (jsMapSet_length_le m _ _) (by omega)
    rw [pruneSize_of_le _ _ hl]
    unfold getOriginalToolName
    by_cases hsafe : safe = ""
    · rw [if_pos hsafe, if_pos hsafe]
    · rw [if_neg hsafe, if_neg hsafe]
      simp only [find?_jsMapSet_ne m (makeKey s1 m1 safe) (makeKey s2 m2 safe)
        (⟨orig, t0⟩ : ToolNameEntry) hkey]
      cases hf : m.find? (fun p => decide (p.1 = makeKey s2 m2 safe)) with
      | none => simp [hf]
      | some p =>
        by_cases httl : TOOLNAME_TTL_MS < t1 - p.2.ts <;> simp [hf, httl]

/-- Claim C2, counterexample.  First conjunct: for a name that sanitizes to
itself (here "a"), `setToolNameMapping` stores nothing (it skips identity
mappings), so the round-trip lookup returns `none`, not the original.
Second conjunct: the `::`-joined cache key does not separate all
session/model pairs — a mapping stored under session "a::b", model "c" is
returned by a lookup under session "a", model "b::c". -/
theorem toolNameCache_counterexample :
    (getOriginalToolName
        (setToolNameMapping [] 0 "s" "m" (sanitizeToolName (some "a")) "a")
        0 "s" "m" (sanitizeToolName (some "a"))).1 ≠ some "a" ∧
    (getOriginalToolName
        (setToolNameMapping [] 0 "a::b" "c" "x_y" "x.y")
        5 "a" "b::c" "x_y").1 = some "x.y" := by
  refine ⟨by decide, by decide⟩

/-- Claim C2, amended.  Round trip: for an original name `n` that
sanitization actually changes (the cache deliberately skips identity
mappings, under which lookups return null and callers keep the sanitized
name), storing and reading back under the same `(session, model)` within
the 30-minute TTL returns `n`, on any cache state within its 512-entry cap.
Separation: as long as session ids and model names contain no colon (derived
session ids are hex/UUID strings, so never do) and the cache is strictly
below its cap (so the FIFO size pruning does not evict), a store under one
`(session, model)` pair never changes the lookup result under a different
session or a different model. -/
theorem toolNameCache_roundtrip_amended :
    (∀ (m : ToolNameCache) (t0 t1 : Nat) (s mod n : String),
        m.length ≤ TOOLNAME_MAX_ENTRIES → n ≠ "" →
        sanitizeToolName (some n) ≠ n → t1 - t0 ≤ TOOLNAME_TTL_MS →
        (getOriginalToolName
          (setToolNameMapping m t0 s mod (sanitizeToolName (some n)) n)
          t1 s mod (sanitizeToolName (some n))).1 = some n) ∧
    (∀ (m : ToolNameCache) (t0 t1 : Nat) (s1 m1 s2 m2 safe orig : String),
        m.length < TOOLNAME_MAX_ENTRIES →
        noColon s1 = true → noColon m1 = true →
        noColon s2 = true → noColon m2 = true →
        (s1 ≠ s2 ∨ m1 ≠ m2) →
        (getOriginalToolName (setToolNameMapping m t0 s1 m1 safe orig)
          t1 s2 m2 safe).1 =
        (getOriginalToolName m t1 s2 m2 safe).1) := by
  constructor
  · intro m t0 t1 s mod n hlen hn hdiff httl
    exact get_after_set m t0 t1 s mod (sanitizeToolName (some n)) n hlen
      (sanitizeToolName_ne_empty (some n)) hn hdiff httl
  · intro m t0 t1 s1 m1 s2 m2 safe orig hlen hs1 hm1 hs2 hm2 hne
    exact get_after_set_other m t0 t1 s1 m1 s2 m2 safe orig hlen
      (makeKey_inj s2 m2 s1 m1 safe hs2 hm2 hs1 hm1
        (by
          cases hne with
          | inl h => exact Or.inl (Ne.symm h)
          | inr h => exact Or.inr (Ne.symm h)))

/-- Witness for the amended C2 at concrete inputs. -/
theorem toolNameCache_roundtrip_amended_witness :
    (getOriginalToolName
      (setToolNameMapping [] 0 "sess" "mod" (sanitizeToolName (some "x.y")) "x.y")
      7 "sess" "mod" (sanitizeToolName (some "x.y"))).1 = some "x.y" ∧
    (getOriginalToolName
      (setToolNameMapping [] 0 "sessA" "modA" "x_y" "x.y") 7 "sessB" "modA" "x_y").1 =
      (getOriginalToolName ([] : ToolNameCache) 7 "sessB" "modA" "x_y").1 :=
  ⟨toolNameCache_roundtrip_amended.1 [] 0 7 "sess" "mod" "x.y" (by decide)
      (by decide) (by decide) (by decide),
   toolNameCache_roundtrip_amended.2 [] 0 7 "sessA" "modA" "sessB" "modA" "x_y" "x.y"
      (by decide) (by decide) (by decide) (by decide) (by decide)
      (Or.inl (by decide))⟩

/-! ## Claim C6 -/

/-- A part whose signature is shorter than the minimum leaves the signature
cache untouched in the non-streaming OpenAI converter. -/
theorem convertPartStep_sigCache_short (hashHex : String → String)
    (nowMs : Nat) (sessionId originalModel : String) (st : ConvState) (p : PartR)
    (hp : p.thoughtSignature.length < MIN_SIGNATURE_LENGTH) :
    (convertPartStep hashHex nowMs sessionId originalModel st p).sigCache =
      st.sigCache := by
  have hle : ¬ (MIN_SIGNATURE_LENGTH ≤ p.thoughtSignature.length) :=
    Nat.not_le.mpr hp
  unfold convertPartStep
  by_cases ht : p.thought
  · simp [ht]
  · cases hfc : p.functionCall with
    | some fc => simp [ht, hfc, hle]
    | none => cases hx : p.text <;> simp [ht, hfc, hx]

theorem convertFold_sigCache_short (hashHex : String → String) (nowMs : Nat)
    (sessionId originalModel : String) (parts : List PartR)
    (hp : ∀ p ∈ parts, p.thoughtSignature.length < MIN_SIGNATURE_LENGTH) :
    ∀ st : ConvState,
      (parts.foldl (convertPartStep hashHex nowMs sessionId originalModel) st).sigCache =
        st.sigCache := by
  induction parts with
  | nil => intro st; rfl
  | cons p ps ih =>
    intro st
    rw [List.foldl_cons, ih (fun q hq => hp q (List.mem_cons_of_mem _ hq)),
      convertPartStep_sigCache_short hashHex nowMs sessionId originalModel st p
        (hp p (List.mem_cons_self _ _))]

/-- A part whose signature is shorter than the minimum leaves the signature
cache untouched in the Gemini outbound converter. -/
theorem processPartsStep_sigCache_short (nowMs : Nat)
    (sessionId modelName : String) (st : List PartR × ToolNameCache × SigCache)
    (p : PartR) (hp : p.thoughtSignature.length < MIN_SIGNATURE_LENGTH) :
    (processPartsStep nowMs sessionId modelName st p).2.2 = st.2.2 := by
  have hle : ¬ (MIN_SIGNATURE_LENGTH ≤ p.thoughtSignature.length) :=
    Nat.not_le.mpr hp
  unfold processPartsStep
  cases hfc : p.functionCall with
  | some fc => simp [hfc, hle]
  | none => simp [hfc]

theorem processPartsFold_sigCache_short (nowMs : Nat)
    (sessionId modelName : String) (parts : List PartR)
    (hp : ∀ p ∈ parts, p.thoughtSignature.length < MIN_SIGNATURE_LENGTH) :
    ∀ st : List PartR × ToolNameCache × SigCache,
      (parts.foldl (processPartsStep nowMs sessionId modelName) st).2.2 = st.2.2 := by
  induction parts with
  | nil => intro st; rfl
  | cons p ps ih =>
    intro st
    rw [List.foldl_cons, ih (fun q hq => hp q (List.mem_cons_of_mem _ hq)),
      processPartsStep_sigCache_short nowMs sessionId modelName st p
        (hp p (List.mem_cons_self _ _))]

/-- Claim C6, counterexample: in the Gemini outbound converter a
functionCall part carrying a 50-character `thoughtSignature` but no
tool-call id is NOT cached, although the claimed iff condition (length at
least 50) holds. -/
theorem signatureCache_counterexample :
    MIN_SIGNATURE_LENGTH ≤
      ("01234567890123456789012345678901234567890123456789").length ∧
    (processParts 0 "sess" "mod"
      [{ thoughtSignature := "01234567890123456789012345678901234567890123456789",
         functionCall := some { name := "f" } }] [] []).2.2 = [] := by
  refine ⟨by decide, by decide⟩

/-- Claim C6, amended: on the way out, a functionCall part's signature is
cached under the tool-call id iff it is at least 50 characters long — in
the OpenAI converter unconditionally (a tool-call id is generated when the
part has none), in the Gemini converter only when the functionCall also
carries an id; signatures shorter than 50 characters are never cached by
either converter. -/
theorem signatureCache_amended :
    (∀ (hashHex : String → String) (randHex : String) (createdSec nowMs : Nat)
        (tc : ToolNameCache) (sc : SigCache) (fc : FunctionCallR)
        (sig fr : String) (um : UsageMetadataR) (model sess : String),
        (convertGoogleToOpenAI hashHex randHex createdSec nowMs tc sc
          { candidates :=
              [{ finishReason := fr,
                 content :=
                   { parts :=
                       [{ thoughtSignature := sig,
                          functionCall := some fc }] } }],
            usageMetadata := um } model sess).2.2 =
          if MIN_SIGNATURE_LENGTH ≤ sig.length then
            cacheSignature sc nowMs (openaiToolId hashHex fc) sig
          else sc) ∧
    (∀ (nowMs : Nat) (sess model sig : String) (fc : FunctionCallR)
        (tc : ToolNameCache) (sc : SigCache),
        (processParts nowMs sess model
          [{ thoughtSignature := sig, functionCall := some fc }] tc sc).2.2 =
          if MIN_SIGNATURE_LENGTH ≤ sig.length ∧ fc.id ≠ "" then
            cacheSignature sc nowMs fc.id sig
          else sc) ∧
    (∀ (hashHex : String → String) (randHex : String) (createdSec nowMs : Nat)
        (tc : ToolNameCache) (sc : SigCache) (resp : GoogleResponseR)
        (model sess : String),
        (∀ p ∈ (resp.candidates.headD {}).content.parts,
          p.thoughtSignature.length < MIN_SIGNATURE_LENGTH) →
        (convertGoogleToOpenAI hashHex randHex createdSec nowMs tc sc resp
          model sess).2.2 = sc) ∧
    (∀ (nowMs : Nat) (sess model : String) (parts : List PartR)
        (tc : ToolNameCache) (sc : SigCache),
        (∀ p ∈ parts, p.thoughtSignature.length < MIN_SIGNATURE_LENGTH) →
        (processParts nowMs sess model parts tc sc).2.2 = sc) := by
  refine ⟨?_, ?_, ?_, ?_⟩
  · intro hashHex randHex createdSec nowMs tc sc fc sig fr um model sess
    by_cases h : MIN_SIGNATURE_LENGTH ≤ sig.length
    · have hne : sig ≠ "" := by
        intro e
        rw [e] at h
        exact absurd h (by decide)
      simp [convertGoogleToOpenAI, convertPartStep, h, hne]
    · simp [convertGoogleToOpenAI, convertPartStep, h]
  · intro nowMs sess model sig fc tc sc
    by_cases h : MIN_SIGNATURE_LENGTH ≤ sig.length
    · have hne : sig ≠ "" := by
        intro e
        rw [e] at h
        exact absurd h (by decide)
      by_cases hid : fc.id = ""
      · cases hfc : (getOriginalToolName tc nowMs sess model fc.name).1 <;>
          simp [processParts, processPartsStep, h, hne, hid, hfc]
      · cases hfc : (getOriginalToolName tc nowMs sess model fc.name).1 <;>
          simp [processParts, processPartsStep, h, hne, hid, hfc]
    · simp [processParts, processPartsStep, h]
  · intro hashHex randHex createdSec nowMs tc sc resp model sess hp
    simp only [convertGoogleToOpenAI]
    exact convertFold_sigCache_short hashHex nowMs sess model _ hp _
  · intro nowMs sess model parts tc sc hp
    exact processPartsFold_sigCache_short nowMs sess model parts hp _

/-- Witness for the amended C6 at concrete inputs. -/
theorem signatureCache_amended_witness :
    (convertGoogleToOpenAI (fun _ => "") "r" 1 3 [] []
      { candidates :=
          [{ finishReason := "STOP",
             content :=
               { parts :=
                   [{ thoughtSignature :=
                        "01234567890123456789012345678901234567890123456789",
                      functionCall := some { id := "x", name := "f" } }] } }] }
      "mod" "sess").2.2 =
      cacheSignature [] 3 "x"
        "01234567890123456789012345678901234567890123456789" ∧
    (processParts 3 "sess" "mod"
      [{ thoughtSignature := "shortsig",
         functionCall := some { id := "x", name := "f" } }] [] []).2.2 = [] := by
  constructor
  · rw [signatureCache_amended.1 (fun _ => "") "r" 1 3 [] []
      { id := "x", name := "f" }
      "01234567890123456789012345678901234567890123456789" "STOP" {} "mod" "sess"]
    decide
  · exact signatureCache_amended.2.2.2 3 "sess" "mod"
      [{ thoughtSignature := "shortsig",
         functionCall := some { id := "x", name := "f" } }] [] [] (by decide)

/-! ## Claim C1 -/

/-- The part accumulator of `accumulateSSEResponse` depends only on the
concatenation of the per-chunk part lists, in order. -/
theorem accumChunks_acc (chunks : List SSEChunk) :
    ∀ st : AccumState,
      (chunks.foldl accumChunkStep st).acc =
        ((chunks.map chunkParts).flatten).foldl accumPartStep st.acc := by
  induction chunks with
  | nil => intro st; rfl
  | cons c cs ih =>
    intro st
    rw [List.foldl_cons, ih]
    simp only [List.map_cons, List.flatten_cons, List.foldl_append]
    rfl

/-- The finish reason of `accumulateSSEResponse` is the last truthy
per-chunk finish reason. -/
theorem accumChunks_fin (chunks : List SSEChunk) :
    ∀ st : AccumState,
      (chunks.foldl accumChunkStep st).finishReason =
        chunks.foldl (fun fr c => if chunkFin c ≠ "" then chunkFin c else fr)
          st.finishReason := by
  induction chunks with
  | nil => intro st; rfl
  | cons c cs ih =>
    intro st
    rw [List.foldl_cons, List.foldl_cons, ih]
    rfl

/-- The two-part thought-then-text fold of the C1 scenario. -/
theorem accumTwoParts (σ : String) :
    ([({ thought := true, text := some "ok ", thoughtSignature := σ } : PartR),
      { text := some "hello" }]).foldl accumPartStep {} =
    { finalParts :=
        [{ thought := true, text := some "ok ", thoughtSignature := σ }],
      accText := "hello" } := by
  by_cases hσ : σ = ""
  · subst hσ; rfl
  · simp [accumPartStep, flushText, flushThinking, hσ]

/-- Accumulation of any SSE stream carrying exactly one thought part
"ok " and one text part "hello", with last finish reason STOP. -/
theorem accumulate_scenario (chunks : List SSEChunk) (σ : String)
    (hparts : (chunks.map chunkParts).flatten =
      [{ thought := true, text := some "ok ", thoughtSignature := σ },
       { text := some "hello" }])
    (hfin : accumFinishReason chunks = "STOP") :
    accumulateSSEResponse chunks =
      { candidates :=
          [{ content :=
               { parts :=
                   [{ thought := true, text := some "ok ",
                      thoughtSignature := σ },
                    { text := some "hello" }] },
             finishReason := "STOP" }],
        usageMetadata := (chunks.foldl accumChunkStep {}).usageMetadata } := by
  simp only [accumulateSSEResponse]
  have ha := accumChunks_acc chunks {}
  rw [hparts] at ha
  have hf := accumChunks_fin chunks {}
  have hf' : (chunks.foldl accumChunkStep {}).finishReason = "STOP" := by
    rw [hf]
    exact hfin
  rw [ha, accumTwoParts σ, hf']
  simp [flushThinking, flushText]

/-- Claim C1: for every upstream SSE stream whose data lines carry, in
order, one thought part "ok " (with any signature) and one plain text part
"hello", with finish reason STOP, the non-streaming thinking path
(`accumulateSSEResponse` then `convertGoogleToOpenAI`) yields
`choices[0].message.content = "hello"`,
`choices[0].message.reasoning_content = "ok "`,
`choices[0].finish_reason = "stop"`, and `model` equal to the originally
requested model name passed through by the route. -/
theorem openai_thinking_scenario (hashHex : String → String) (randHex : String)
    (createdSec nowMs : Nat) (tc : ToolNameCache) (sc : SigCache)
    (chunks : List SSEChunk) (originalModel sessionId σ : String)
    (hparts : (chunks.map chunkParts).flatten =
      [{ thought := true, text := some "ok ", thoughtSignature := σ },
       { text := some "hello" }])
    (hfin : accumFinishReason chunks = "STOP") :
    (convertGoogleToOpenAI hashHex randHex createdSec nowMs tc sc
      (accumulateSSEResponse chunks) originalModel sessionId).1.model =
        originalModel ∧
    ((convertGoogleToOpenAI hashHex randHex createdSec nowMs tc sc
      (accumulateSSEResponse chunks) originalModel sessionId).1.choices.map
        (fun ch => (ch.message.content, ch.message.reasoning_content,
          ch.finish_reason))) =
      [(some "hello", "ok ", "stop")] := by
  rw [accumulate_scenario chunks σ hparts hfin]
  constructor
  · rfl
  · simp [convertGoogleToOpenAI, convertPartStep, mapFinishReason]

/-- Witness for C1: a concrete one-chunk stream carrying the two parts and
finish reason STOP. -/
theorem openai_thinking_scenario_witness :
    (convertGoogleToOpenAI (fun _ => "h") "r" 1 2 [] []
      (accumulateSSEResponse
        [{ candidates :=
             [{ finishReason := "STOP",
                content :=
                  { parts := [{ thought := true, text := some "ok " },
                              { text := some "hello" }] } }] }])
      "gemini-2.5-pro-thinking" "sess").1.model = "gemini-2.5-pro-thinking" ∧
    ((convertGoogleToOpenAI (fun _ => "h") "r" 1 2 [] []
      (accumulateSSEResponse
        [{ candidates :=
             [{ finishReason := "STOP",
                content :=
                  { parts := [{ thought := true, text := some "ok " },
                              { text := some "hello" }] } }] }])
      "gemini-2.5-pro-thinking" "sess").1.choices.map
        (fun ch => (ch.message.content, ch.message.reasoning_content,
          ch.finish_reason))) = [(some "hello", "ok ", "stop")] :=
  openai_thinking_scenario (fun _ => "h") "r" 1 2 [] [] _
    "gemini-2.5-pro-thinking" "sess" "" (by decide) (by decide)

/-! ## Claim C10 -/

/-- One part step of the streaming converter either leaves the yielded
chunks unchanged or appends one delta chunk without a finish reason. -/
theorem streamPartStep_out (hashHex : String → String) (completionId : String)
    (created nowMs : Nat) (om se : String) (st : StreamState) (p : PartR) :
    (streamPartStep hashHex completionId created nowMs om se st p).out = st.out ∨
      ∃ d, d.finish_reason = none ∧
        (streamPartStep hashHex completionId created nowMs om se st p).out =
          st.out ++ [d] := by
  unfold streamPartStep
  by_cases ht : p.thought
  · rw [if_pos ht]
    by_cases hsig : p.thoughtSignature ≠ "" <;>
      by_cases htext : p.text.getD "" ≠ "" <;>
      simp [hsig, htext, createStreamChunk]
  · rw [if_neg ht]
    by_cases htext : p.text.getD "" ≠ ""
    · simp [htext, createStreamChunk]
    · simp only [htext, if_false]
      cases hfc : p.functionCall <;> simp [hfc]

/-- Part-level deltas of the streaming converter never carry a finish
reason. -/
theorem streamPartStep_none (hashHex : String → String) (completionId : String)
    (created nowMs : Nat) (om se : String) (st : StreamState) (p : PartR)
    (h : ∀ c ∈ st.out, c.finish_reason = none) :
    ∀ c ∈ (streamPartStep hashHex completionId created nowMs om se st p).out,
      c.finish_reason = none := by
  intro c hc
  rcases streamPartStep_out hashHex completionId created nowMs om se st p with
    h1 | ⟨d, hd, h1⟩
  · rw [h1] at hc
    exact h c hc
  · rw [h1] at hc
    rcases List.mem_append.1 hc with hc | hc
    · exact h c hc
    · simp only [List.mem_singleton] at hc
      subst hc
      exact hd

theorem streamPartsFold_none (hashHex : String → String) (completionId : String)
    (created nowMs : Nat) (om se : String) (parts : List PartR) :
    ∀ st : StreamState, (∀ c ∈ st.out, c.finish_reason = none) →
      ∀ c ∈ (parts.foldl
        (streamPartStep hashHex completionId created nowMs om se) st).out,
        c.finish_reason = none := by
  induction parts with
  | nil => intro st h; exact h
  | cons p ps ih =>
    intro st h
    rw [List.foldl_cons]
    exact ih _ (streamPartStep_none hashHex completionId created nowMs om se st p h)

/-- Chunk-level processing of the streaming converter never emits a chunk
with a finish reason. -/
theorem streamChunkStep_none (hashHex : String → String) (completionId : String)
    (created nowMs : Nat) (om se : String) (st : StreamState) (chunk : SSEChunk)
    (h : ∀ c ∈ st.out, c.finish_reason = none) :
    ∀ c ∈ (streamChunkStep hashHex completionId created nowMs om se st chunk).out,
      c.finish_reason = none := by
  intro c hc
  unfold streamChunkStep at hc
  cases hu : chunk.usageMetadata <;> simp only [hu] at hc <;>
    split_ifs at hc <;>
    (refine streamPartsFold_none hashHex completionId created nowMs om se _ _ ?_ c hc
     intro d hd
     first
       | exact h d hd
       | (rcases List.mem_append.1 hd with hd | hd
          · exact h d hd
          · simp only [List.mem_singleton] at hd
            subst hd
            rfl))

theorem streamChunksFold_none (hashHex : String → String) (completionId : String)
    (created nowMs : Nat) (om se : String) (chunks : List SSEChunk) :
    ∀ st : StreamState, (∀ c ∈ st.out, c.finish_reason = none) →
      ∀ c ∈ (chunks.foldl
        (streamChunkStep hashHex completionId created nowMs om se) st).out,
        c.finish_reason = none := by
  induction chunks with
  | nil => intro st h; exact h
  | cons ch chs ih =>
    intro st h
    rw [List.foldl_cons]
    exact ih _ (streamChunkStep_none hashHex completionId created nowMs om se st ch h)

/-- Claim C10: on every upstream body (including one with no parseable
data lines, i.e. the empty chunk list), `streamGoogleToOpenAI` yields at
least one chunk; only its final chunk carries a non-null finish_reason;
and that final chunk carries a usage object with
`total_tokens = prompt_tokens + completion_tokens`. -/
theorem streamGoogleToOpenAI_final (hashHex : String → String)
    (completionId : String) (created nowMs : Nat) (tc : ToolNameCache)
    (sc : SigCache) (chunks : List SSEChunk) (originalModel sessionId : String) :
    (streamGoogleToOpenAI hashHex completionId created nowMs tc sc chunks
      originalModel sessionId).1 ≠ [] ∧
    (∀ c ∈ ((streamGoogleToOpenAI hashHex completionId created nowMs tc sc
      chunks originalModel sessionId).1).dropLast, c.finish_reason = none) ∧
    (∀ c, ((streamGoogleToOpenAI hashHex completionId created nowMs tc sc
      chunks originalModel sessionId).1).getLast? = some c →
      c.finish_reason.isSome = true ∧
      ∃ u, c.usage = some u ∧
        u.total_tokens = u.prompt_tokens + u.completion_tokens) := by
  have hinv := streamChunksFold_none hashHex completionId created nowMs
    originalModel sessionId chunks { toolCache := tc, sigCache := sc }
    (by intro c hc; simp at hc)
  simp only [streamGoogleToOpenAI]
  refine ⟨?_, ?_, ?_⟩
  · split_ifs <;> simp [List.append_eq_nil]
  · intro c hc
    split_ifs at hc <;> rw [List.dropLast_concat] at hc <;>
      first
        | exact hinv c hc
        | (simp only [List.mem_append, List.mem_singleton] at hc
           rcases hc with hc | rfl
           · exact hinv c hc
           · rfl)
  · intro c hc
    split_ifs at hc <;> rw [List.getLast?_concat] at hc <;>
      (injection hc with hc; subst hc; exact ⟨rfl, _, rfl, rfl⟩)

/-- Witness for C10 on the degenerate empty stream: the single yielded
chunk is the final one, and it satisfies the finish/usage properties. -/
theorem streamGoogleToOpenAI_final_witness :
    (streamGoogleToOpenAI (fun _ => "") "cid" 1 2 [] [] [] "m" "s").1 ≠ [] ∧
    ((createStreamChunk "cid" 1 "m" {} (some "stop")
        (some { prompt_tokens := 0,
                completion_tokens := 0,
                total_tokens := 0 })).finish_reason.isSome = true ∧
      ∃ u, (createStreamChunk "cid" 1 "m" {} (some "stop")
          (some { prompt_tokens := 0,
                  completion_tokens := 0,
                  total_tokens := 0 })).usage = some u ∧
        u.total_tokens = u.prompt_tokens + u.completion_tokens) :=
  ⟨(streamGoogleToOpenAI_final (fun _ => "") "cid" 1 2 [] [] [] "m" "s").1,
   (streamGoogleToOpenAI_final (fun _ => "") "cid" 1 2 [] [] [] "m" "s").2.2
     (createStreamChunk "cid" 1 "m" {} (some "stop")
       (some { prompt_tokens := 0,
               completion_tokens := 0,
               total_tokens := 0 })) (by decide)⟩

/-- Witness for C9 at a concrete input, with the character-membership
hypothesis discharged concretely. -/
theorem sanitizeToolName_safe_witness :
    sanitizeToolName (some "my.tool!") ≠ "" ∧
    (sanitizeToolName (some "my.tool!")).length ≤ 128 ∧
    isAllowedChar 'm' = true :=
  ⟨(sanitizeToolName_safe (some "my.tool!")).1,
   (sanitizeToolName_safe (some "my.tool!")).2.1,
   (sanitizeToolName_safe (some "my.tool!")).2.2 'm' (by decide)⟩
